import Mathlib

/-!
foodash: cart and order bookkeeping of `server.js`

A shallow embedding of the route handlers of `src/0/server.js` (an Express
application over Mongoose models) as pure functions on an explicit store.

Modelling conventions

* An identifier (`ObjectId`, or the 24-digit string a request carries for it) is
  a natural number; a request identifier is in the canonical form that
  `ObjectId.toString()` prints, so `a.toString() === b` is equality of numbers.
* A collection is the list of its documents in insertion order. `findOne` and
  `findById` return the first match, `deleteOne` and `findOneAndDelete` remove
  the first match, an update changes the first match.
* A fresh `_id` is taken from the counter `nextId` of the store.
* The routes carry a number as an integer, and arithmetic on a value that is not
  a number (`undefined`, `NaN`) is `none` of `JsNum`. The code computes in
  binary64, which agrees with the integers as long as every result is a safe
  integer (`SafeInt`, `runningTotal64_ofInt`); `F64` is binary64 itself, for the
  values beyond that: fractions and integers of magnitude `2^53` and more.
* A handler returns the response it sends and the store it leaves.
-/

namespace Foodash

/-! ## Data model -/

/-- An `ObjectId`. -/
abbrev Id := Nat

/-- A JavaScript number in the handlers' arithmetic: an integer, or `none` for
`undefined` and `NaN`. The three operations below are those of the code where
the operands and the result are safe integers; `f64Mul` and `f64Add` are the
operations of the code on every binary64 value. -/
abbrev JsNum := Option Int

/-- JavaScript `a * b`. -/
def jsMul (a b : JsNum) : JsNum :=
  match a, b with
  | some x, some y => some (x * y)
  | _, _ => none

/-- JavaScript `a + b` on numbers. -/
def jsAdd (a b : JsNum) : JsNum :=
  match a, b with
  | some x, some y => some (x + y)
  | _, _ => none

/-- JavaScript `a - b`. -/
def jsSub (a b : JsNum) : JsNum :=
  match a, b with
  | some x, some y => some (x - y)
  | _, _ => none

/-- An uploaded file or a stored image: `{ data: Buffer, contentType: String }`. -/
structure Image where
  data : List Nat
  contentType : String
deriving DecidableEq, Repr

/-- A document of `userSchema`. -/
structure User where
  _id : Id
  name : String
  phone : String
  location : String
  email : String
  password : String
  label : String
  imageUrl : Option Image
deriving DecidableEq, Repr

/-- A document of `restaurantSchema` (the fields the handlers below read or write). -/
structure Restaurant where
  _id : Id
  name : String
  Rating : Int
  LoveCount : Int
  orders : List Id
deriving DecidableEq, Repr

/-- A document of `foodSchema`; `price` is not a required path. -/
structure Food where
  _id : Id
  name : String
  price : Option Int
deriving DecidableEq, Repr

/-- An element of `cartSchema.items`; Mongoose gives every subdocument an `_id`. -/
structure CartItem where
  _id : Id
  foodId : Id
  quantity : Int
deriving DecidableEq, Repr

/-- A document of `cartSchema`. -/
structure Cart where
  _id : Id
  userId : Id
  restaurantId : Id
  items : List CartItem
  total : Int
deriving DecidableEq, Repr

/-- An element of `orderSchema.items`. -/
structure OrderItem where
  foodId : Id
  foodName : Option String
  price : Option Int
  quantity : Option Int
deriving DecidableEq, Repr

/-- A document of `orderSchema`. -/
structure Order where
  _id : Id
  userId : Id
  restaurantId : Id
  items : List OrderItem
  total : Int
  status : String
  createdAt : Nat
  customerName : Option String
  customerAddress : Option String
  customerPhone : Option String
  restaurantName : Option String
  restaurantAddress : Option String
  restaurantPhone : Option String
deriving DecidableEq, Repr

/-- The document store: the five collections and the identifier supply. -/
structure Store where
  users : List User
  restaurants : List Restaurant
  foods : List Food
  carts : List Cart
  orders : List Order
  nextId : Id
deriving DecidableEq, Repr

/-- What `res.json` is given. -/
inductive Body where
  | message (m : String)
  | cart (c : Cart)
  | order (o : Order)
  | user (u : User)
  | restaurants (rs : List Restaurant)
deriving DecidableEq, Repr

/-- The response of a handler: `res.status(status).json(body)`. -/
structure Response where
  status : Nat
  body : Body
deriving DecidableEq, Repr

/-- The reply `res.status(code).json({ message })`. -/
def reply (code : Nat) (m : String) : Response := ⟨code, .message m⟩

/-! ## Collection primitives -/

/-- Change the first element satisfying `p` by `f`. -/
def updateFirst {α : Type} (p : α → Bool) (f : α → α) : List α → List α
  | [] => []
  | x :: xs => if p x then f x :: xs else x :: updateFirst p f xs

/-- The call `Cart.findOne({ userId })`. -/
def findCart (s : Store) (userId : Id) : Option Cart :=
  s.carts.find? (fun c => c.userId == userId)

/-- The call `Food.findById(foodId)`. -/
def findFood (s : Store) (foodId : Id) : Option Food :=
  s.foods.find? (fun f => f._id == foodId)

/-- The call `Order.findById(orderId)`. -/
def findOrder (s : Store) (orderId : Id) : Option Order :=
  s.orders.find? (fun o => o._id == orderId)

/-- The call `Restaurant.findById(restaurantId)`. -/
def findRestaurant (s : Store) (restaurantId : Id) : Option Restaurant :=
  s.restaurants.find? (fun r => r._id == restaurantId)

/-- The call `Cart.deleteOne({ _id })`. -/
def deleteCart (s : Store) (id : Id) : Store :=
  { s with carts := s.carts.eraseP (fun c => c._id == id) }

/-- A cart document held by a handler: its fields, whether it was built by
`new Cart(..)` and not yet saved, and whether an assignment to it was refused. -/
structure CartDoc where
  cart : Cart
  isNew : Bool
  invalid : Bool
deriving DecidableEq, Repr

/-- The assignment `cart.total = v`. The `Number` path refuses a value that is
not a number: the field keeps its value and the document is marked invalid. -/
def CartDoc.setTotal (d : CartDoc) (v : JsNum) : CartDoc :=
  match v with
  | some n => { d with cart := { d.cart with total := n } }
  | none => { d with invalid := true }

/-- The assignment `cart.items = items` in all its forms (element update, `push`, `splice`). -/
def CartDoc.setItems (d : CartDoc) (items : List CartItem) : CartDoc :=
  { d with cart := { d.cart with items := items } }

/-- The call `cart.save()`: `none` when validation rejects the document (the
handler then answers 500), else the store with the document inserted (a new
document) or its changed paths `items` and `total` written to the stored one. -/
def saveCart (s : Store) (d : CartDoc) : Option Store :=
  if d.invalid then none
  else if d.isNew then some { s with carts := s.carts ++ [d.cart] }
  else
    let written := updateFirst (fun c => c._id == d.cart._id)
      (fun c => { c with items := d.cart.items, total := d.cart.total }) s.carts
    some { s with carts := written }

/-- The reply of every `catch` block of the cart routes. -/
def internalError : Response := reply 500 "Internal server error"

/-! ## Cart routes -/

/-- Index of the first element satisfying `p`: `Array.prototype.findIndex`, with
`none` for `-1`. -/
def findIndex {α : Type} (p : α → Bool) : List α → Option Nat
  | [] => none
  | x :: xs => if p x then some 0 else (findIndex p xs).map (· + 1)

/-- Lines 463-468 of `POST /users/:userId/cart`: load the user's cart; a cart of
another restaurant is deleted and the handler goes on with `cart = null`. -/
def loadCartFor (s : Store) (userId restaurantId : Id) : Store × Option Cart :=
  match findCart s userId with
  | some c =>
    if c.restaurantId != restaurantId then (deleteCart s c._id, none) else (s, some c)
  | none => (s, none)

/-- Lines 470-472: `if (!cart) cart = new Cart({ userId, items: [], total: 0, restaurantId })`. -/
def cartOrNew (s : Store) (found : Option Cart) (userId restaurantId : Id) : Store × CartDoc :=
  match found with
  | some c => (s, ⟨c, false, false⟩)
  | none =>
    ({ s with nextId := s.nextId + 1 }, ⟨⟨s.nextId, userId, restaurantId, [], 0⟩, true, false⟩)

/-- Lines 479-484: `existingItem.quantity += quantity` on the first line of the
food, or `cart.items.push({ foodId, quantity })` with a fresh line `_id`. -/
def putLine (s : Store) (d : CartDoc) (foodId : Id) (quantity : Int) : Store × CartDoc :=
  if d.cart.items.any (fun item => item.foodId == foodId) then
    (s, d.setItems (updateFirst (fun item => item.foodId == foodId)
      (fun item => { item with quantity := item.quantity + quantity }) d.cart.items))
  else
    ({ s with nextId := s.nextId + 1 },
      d.setItems (d.cart.items ++ [⟨s.nextId, foodId, quantity⟩]))

/-- Lines 474-489: resolve the food, answer 404 when there is none, else put the
line, add `food.price * quantity` to the total and save. -/
def storeLine (s : Store) (d : CartDoc) (foodId : Id) (quantity : Int) : Response × Store :=
  -- const food = await Food.findById(foodId)
  match findFood s foodId with
  | none => (reply 404 "Food item not found", s)
  | some food =>
    let w := putLine s d foodId quantity
    -- cart.total += food.price * quantity
    let d1 := w.2.setTotal (jsAdd (some w.2.cart.total) (jsMul food.price (some quantity)))
    match saveCart w.1 d1 with
    | none => (internalError, w.1)
    | some s1 => (⟨201, .cart d1.cart⟩, s1)

/-- The route `POST /users/:userId/cart`. -/
def addItem (s : Store) (userId restaurantId foodId : Id) (quantity : Int) : Response × Store :=
  let l := loadCartFor s userId restaurantId
  let o := cartOrNew l.1 l.2 userId restaurantId
  storeLine o.1 o.2 foodId quantity

/-- The read `item.foodId.price` in the two food-keyed routes. Their cart comes
from `Cart.findOne({ userId })` without `.populate('items.foodId')`, so
`item.foodId` is an `ObjectId`, which has no property `price`: the read gives
`undefined` whatever the food is. -/
def unpopulatedPrice (_foodId : Id) : JsNum := none

/-- The route `PUT /users/:userId/cart`. -/
def setItemQuantity (s : Store) (userId foodId : Id) (quantity : Int) : Response × Store :=
  match findCart s userId with
  | none => (reply 404 "Cart not found", s)
  | some cart =>
    match findIndex (fun item => item.foodId == foodId) cart.items with
    | none => (reply 404 "Food item not found in cart", s)
    | some itemIndex =>
      match cart.items[itemIndex]? with
      | none => (internalError, s)
      | some item =>
        let d : CartDoc := ⟨cart, false, false⟩
        -- cart.total -= item.quantity * item.foodId.price
        let d1 := d.setTotal
          (jsSub (some d.cart.total) (jsMul (some item.quantity) (unpopulatedPrice item.foodId)))
        -- cart.items[itemIndex].quantity = quantity
        let d2 := d1.setItems (d1.cart.items.set itemIndex { item with quantity := quantity })
        -- cart.total += item.quantity * item.foodId.price
        let d3 := d2.setTotal
          (jsAdd (some d2.cart.total) (jsMul (some quantity) (unpopulatedPrice item.foodId)))
        match saveCart s d3 with
        | none => (internalError, s)
        | some s1 => (⟨200, .cart d3.cart⟩, s1)

/-- The route `PUT /users/:userId/cart/:itemId`. -/
def setItemQuantityByLineId (s : Store) (userId itemId : Id) (quantity : Int) :
    Response × Store :=
  match findCart s userId with
  | none => (reply 404 "Cart not found", s)
  | some cart =>
    match findIndex (fun item => item._id == itemId) cart.items with
    | none => (reply 404 "Item not found in cart", s)
    | some itemIndex =>
      match cart.items[itemIndex]? with
      | none => (internalError, s)
      | some item =>
        match findFood s item.foodId with
        | none => (reply 404 "Food item not found", s)
        | some _ =>
          let d : CartDoc := ⟨cart, false, false⟩
          let d1 := d.setItems (d.cart.items.set itemIndex { item with quantity := quantity })
          match saveCart s d1 with
          | none => (internalError, s)
          | some s1 => (⟨200, .cart d1.cart⟩, s1)

/-- The route `DELETE /users/:userId/cart/:itemId`. -/
def removeLineById (s : Store) (userId itemId : Id) : Response × Store :=
  match findCart s userId with
  | none => (reply 404 "Cart not found", s)
  | some cart =>
    match findIndex (fun item => item._id == itemId) cart.items with
    | none => (reply 404 "Item not found in cart", s)
    | some itemIndex =>
      let d : CartDoc := ⟨cart, false, false⟩
      -- cart.items.splice(itemIndex, 1)
      let d1 := d.setItems (d.cart.items.eraseIdx itemIndex)
      match saveCart s d1 with
      | none => (internalError, s)
      | some s1 => (reply 204 "Item removed from cart", s1)

/-- The route `DELETE /users/:userId/cart/items/:foodId`. -/
def removeLineByFoodId (s : Store) (userId foodId : Id) : Response × Store :=
  match findCart s userId with
  | none => (reply 404 "Cart not found", s)
  | some cart =>
    match findIndex (fun item => item.foodId == foodId) cart.items with
    | none => (reply 404 "Food item not found in cart", s)
    | some itemIndex =>
      match cart.items[itemIndex]? with
      | none => (internalError, s)
      | some item =>
        let d : CartDoc := ⟨cart, false, false⟩
        -- cart.total -= item.quantity * item.foodId.price
        let d1 := d.setTotal
          (jsSub (some d.cart.total) (jsMul (some item.quantity) (unpopulatedPrice item.foodId)))
        -- cart.items.splice(itemIndex, 1)
        let d2 := d1.setItems (d1.cart.items.eraseIdx itemIndex)
        match saveCart s d2 with
        | none => (internalError, s)
        | some s1 => (reply 204 "Item removed from cart", s1)

/-- The route `DELETE /users/:userId/cart`. -/
def clearCart (s : Store) (userId : Id) : Response × Store :=
  match findCart s userId with
  | none => (reply 404 "Cart not found", s)
  | some cart => (reply 204 "Cart cleared", deleteCart s cart._id)

/-! ## Order routes -/

/-- The body of `POST /users/:userId/orders`; `none` is a field the body lacks. -/
structure UserOrderRequest where
  restaurantId : Option Id
  items : Option (List OrderItem)
  total : Option Int
deriving DecidableEq, Repr

/-- The route `POST /users/:userId/orders`. `order.save()` rejects a document
without the required paths `restaurantId` and `total`; `now` is `Date.now()`. -/
def createUserOrder (s : Store) (now : Nat) (userId : Id) (req : UserOrderRequest) :
    Response × Store :=
  let s0 := { s with nextId := s.nextId + 1 }
  match req.restaurantId, req.total with
  | some restaurantId, some total =>
    let order : Order :=
      { _id := s.nextId, userId := userId, restaurantId := restaurantId,
        items := req.items.getD [], total := total, status := "Pending", createdAt := now,
        customerName := none, customerAddress := none, customerPhone := none,
        restaurantName := none, restaurantAddress := none, restaurantPhone := none }
    -- await order.save(); res.status(201).json(order); await Cart.findOneAndDelete({ userId })
    (⟨201, .order order⟩,
      { s0 with orders := s0.orders ++ [order],
                carts := s0.carts.eraseP (fun c => c.userId == userId) })
  | _, _ => (internalError, s0)

/-- The sentinel status of the guard of `PUT /orders/:orderId/status`. -/
def confirmedByDelivery : String := "Confirmed_by_delivery"

/-- The route `PUT /orders/:orderId/status`. -/
def updateStatus (s : Store) (orderId : Id) (status : String) : Response × Store :=
  -- if (status === 'Confirmed_by_delivery') { existingOrder && existingOrder.status === .. }
  let refused : Bool :=
    status == confirmedByDelivery &&
      (match findOrder s orderId with
       | some existingOrder => existingOrder.status == confirmedByDelivery
       | none => false)
  if refused then (reply 400 "Order already confirmed by delivery", s)
  else
    -- Order.findByIdAndUpdate(orderId, { status }, { new: true })
    match findOrder s orderId with
    | none => (reply 404 "Order not found", s)
    | some order =>
      (⟨200, .order { order with status := status }⟩,
        { s with orders := updateFirst (fun o => o._id == orderId)
                   (fun o => { o with status := status }) s.orders })

/-- The body of `POST /orders`; `none` is a field the body lacks. -/
structure OrderRequest where
  userId : Option Id
  restaurantId : Option Id
  items : Option (List OrderItem)
  total : Option Int
  customerName : Option String
  customerAddress : Option String
  customerPhone : Option String
  restaurantName : Option String
  restaurantAddress : Option String
  restaurantPhone : Option String
deriving DecidableEq, Repr

/-- JavaScript `!x` on a string field: true on a missing and on an empty string. -/
def falsyStr (x : Option String) : Bool :=
  match x with
  | some t => t == ""
  | none => true

/-- JavaScript `!x` on a number field: true on a missing number and on `0`. -/
def falsyNum (x : Option Int) : Bool :=
  match x with
  | some n => n == 0
  | none => true

/-- JavaScript `!x` on an identifier or an array: true on a missing one only. -/
def falsyRef {α : Type} (x : Option α) : Bool := x.isNone

/-- The test of line 716 of `POST /orders`. -/
def incomplete (req : OrderRequest) : Bool :=
  falsyRef req.userId || falsyRef req.restaurantId || falsyRef req.items || falsyNum req.total ||
    falsyStr req.customerName || falsyStr req.customerAddress || falsyStr req.customerPhone ||
    falsyStr req.restaurantName || falsyStr req.restaurantAddress || falsyStr req.restaurantPhone

/-- The route `POST /orders`; `now` is `Date.now()`. -/
def placeOrder (s : Store) (now : Nat) (req : OrderRequest) : Response × Store :=
  if incomplete req then (reply 400 "Incomplete order data", s)
  else
    match req.userId, req.restaurantId, req.items, req.total with
    | some userId, some restaurantId, some items, some total =>
      match findRestaurant s restaurantId with
      | none => (reply 404 "Restaurant not found", s)
      | some restaurant =>
        let newOrder : Order :=
          { _id := s.nextId, userId := userId, restaurantId := restaurantId, items := items,
            total := total, status := "Pending", createdAt := now,
            customerName := req.customerName, customerAddress := req.customerAddress,
            customerPhone := req.customerPhone, restaurantName := req.restaurantName,
            restaurantAddress := req.restaurantAddress, restaurantPhone := req.restaurantPhone }
        -- await newOrder.save(); restaurant.orders.push(newOrder._id); await restaurant.save()
        (⟨201, .order newOrder⟩,
          { s with nextId := s.nextId + 1,
                   orders := s.orders ++ [newOrder],
                   restaurants := updateFirst (fun r => r._id == restaurant._id)
                     (fun r => { r with orders := r.orders ++ [newOrder._id] }) s.restaurants })
    | _, _, _, _ => (reply 400 "Incomplete order data", s)

/-! ## Identity route -/

/-- The body and the file of `POST /signup`. -/
structure SignupRequest where
  name : String
  phone : String
  location : String
  email : String
  password : String
  label : String
  file : Option Image
deriving DecidableEq, Repr

/-- The route `POST /signup` (the signed token of the reply is left out of the body). -/
def createAccount (s : Store) (req : SignupRequest) : Response × Store :=
  -- const existingUser = await User.findOne({ email: req.body.email })
  match s.users.find? (fun u => u.email == req.email) with
  | some _ => (reply 400 "Email already in use", s)
  | none =>
    match req.file with
    | none => (reply 400 "No file uploaded", s)
    | some file =>
      let newUser : User :=
        { _id := s.nextId, name := req.name, phone := req.phone, location := req.location,
          email := req.email, password := req.password, label := req.label,
          imageUrl := some file }
      (⟨200, .user newUser⟩, { s with users := s.users ++ [newUser], nextId := s.nextId + 1 })

/-! ## Catalog route -/

/-- The order of `.sort({ Rating: -1 })`: `a` is not rated below `b`. -/
def ratedAtLeast (a b : Restaurant) : Prop := b.Rating ≤ a.Rating

instance : DecidableRel ratedAtLeast :=
  fun a b => inferInstanceAs (Decidable (b.Rating ≤ a.Rating))

instance : IsTotal Restaurant ratedAtLeast := ⟨fun a b => Int.le_total b.Rating a.Rating⟩

instance : IsTrans Restaurant ratedAtLeast :=
  ⟨fun a b c hab hbc => Int.le_trans (a := c.Rating) (b := b.Rating) (c := a.Rating) hbc hab⟩

/-- The query `Restaurant.find({}).sort({ Rating: -1 }).limit(10)`: the stored
restaurants, highest rating first (ties in stored order), cut after ten. -/
def topRestaurants (s : Store) : List Restaurant :=
  (s.restaurants.insertionSort ratedAtLeast).take 10

/-- The route `GET /top` (the image of a restaurant, which the reply re-encodes,
is not part of `Restaurant` here). -/
def topRated (s : Store) : Response :=
  if (topRestaurants s).length = 0 then reply 404 "No top restaurants found"
  else ⟨200, .restaurants (topRestaurants s)⟩

/-! ## Binary64 arithmetic -/

/-- A value of the JavaScript `Number` type (IEEE 754 binary64): the finite value
`(-1)^neg * m * 2^e`, an infinity, or NaN. A finite value is kept in the form of
its encoding: `-1074 ≤ e ≤ 971`, `m < 2^53`, and `2^52 ≤ m` unless `e = -1074`. -/
inductive F64 where
  | finite (neg : Bool) (m : Nat) (e : Int)
  | inf (neg : Bool)
  | nan
deriving DecidableEq, Repr

/-- Number of binary digits of `n`, by halving at most `fuel` times. -/
def bitLengthAux : Nat → Nat → Nat
  | 0, _ => 0
  | fuel + 1, n => if n = 0 then 0 else bitLengthAux fuel (n / 2) + 1

/-- Number of times, at most `fuel`, that `n` is divided by `2^64` before it is
below `2^64`. -/
def wordCount : Nat → Nat → Nat
  | 0, _ => 0
  | fuel + 1, n => if n < 2 ^ 64 then 0 else wordCount fuel (n / 2 ^ 64) + 1

/-- Number of binary digits of `n`: 64 for each of its whole low words, and the
digits of what is above them. -/
def bitLength (n : Nat) : Nat :=
  64 * wordCount n n + bitLengthAux 64 (n / 2 ^ (64 * wordCount n n))

/-- The binary64 value nearest to `(-1)^neg * m * 2^e`, ties to the even
significand, overflow to infinity. -/
def F64.round (neg : Bool) (m : Nat) (e : Int) : F64 :=
  if m = 0 then .finite neg 0 (-1074)
  else
    let e1 : Int := max (e + (bitLength m : Int) - 53) (-1074)
    if e1 ≤ e then
      -- the value fits in 53 digits at exponent `e1`
      if 971 < e1 then .inf neg else .finite neg (m * 2 ^ (e - e1).toNat) e1
    else
      let k := (e1 - e).toNat
      let q := m / 2 ^ k
      let r := m % 2 ^ k
      let up : Bool := decide (2 ^ k < 2 * r) || (decide (2 * r = 2 ^ k) && q % 2 == 1)
      let m1 := if up then q + 1 else q
      let m2 := if m1 = 2 ^ 53 then 2 ^ 52 else m1
      let e2 : Int := if m1 = 2 ^ 53 then e1 + 1 else e1
      if 971 < e2 then .inf neg else .finite neg m2 e2

/-- The binary64 value of a natural number literal. -/
def F64.ofNat (n : Nat) : F64 := F64.round false n 0

/-- JavaScript `a * b` on binary64. -/
def f64Mul : F64 → F64 → F64
  | .nan, _ => .nan
  | _, .nan => .nan
  | .inf s, .inf t => .inf (s != t)
  | .inf s, .finite t m _ => if m = 0 then .nan else .inf (s != t)
  | .finite s m _, .inf t => if m = 0 then .nan else .inf (s != t)
  | .finite s m e, .finite t n f => F64.round (s != t) (m * n) (e + f)

/-- JavaScript `a + b` on binary64. -/
def f64Add : F64 → F64 → F64
  | .nan, _ => .nan
  | _, .nan => .nan
  | .inf s, .inf t => if s = t then .inf s else .nan
  | .inf s, .finite _ _ _ => .inf s
  | .finite _ _ _, .inf t => .inf t
  | .finite s m e, .finite t n f =>
    let g := min e f
    let a : Int := (if s then -1 else 1) * ((m * 2 ^ (e - g).toNat : Nat) : Int)
    let b : Int := (if t then -1 else 1) * ((n * 2 ^ (f - g).toNat : Nat) : Int)
    if a + b = 0 then .finite (s && t) 0 (-1074)
    else F64.round (decide (a + b < 0)) (a + b).natAbs g

/-- The binary64 value of an integer. -/
def F64.ofInt (n : Int) : F64 := F64.round (decide (n < 0)) n.natAbs 0

/-- The `total` of a cart in the arithmetic of the code: `total: 0` of
`new Cart(..)` (line 471), then `cart.total += food.price * quantity` (line 486)
once for each `addItem` call of the food, in turn. -/
def runningTotal64 (price : F64) (quantities : List F64) : F64 :=
  quantities.foldl (fun total quantity => f64Add total (f64Mul price quantity)) (F64.ofNat 0)

/-- An integer of magnitude at most `2^53 - 1` (`Number.MAX_SAFE_INTEGER`). Every
such integer is a binary64 value, and a sum or product of binary64 values that is
such an integer is computed without rounding. -/
def SafeInt (n : Int) : Prop := -9007199254740991 ≤ n ∧ n ≤ 9007199254740991

instance (n : Int) : Decidable (SafeInt n) := by
  unfold SafeInt; infer_instance

/-- The binary64 value nearest to 0.99, `0x1.fae147ae147aep-1`: the price that
the JSON text `0.99` gives. -/
def price099 : F64 := .finite false 8917127262193582 (-53)

/-- The finite binary64 value `x` is the integer `n`: its significand, with its
sign, is `n` times the power of two that its exponent takes away. -/
def Encodes (x : F64) (n : Int) : Prop :=
  ∃ (s : Bool) (m k : Nat), x = .finite s m (-(k : Int)) ∧
    (if s then -(m : Int) else (m : Int)) = n * 2 ^ k

/-! ## Requests in sequence -/

/-- A request to one of the cart or order-creation routes. -/
inductive Request where
  | addItem (userId restaurantId foodId : Id) (quantity : Int)
  | setItemQuantity (userId foodId : Id) (quantity : Int)
  | setItemQuantityByLineId (userId itemId : Id) (quantity : Int)
  | removeLineById (userId itemId : Id)
  | removeLineByFoodId (userId foodId : Id)
  | clearCart (userId : Id)
  | createUserOrder (now : Nat) (userId : Id) (req : UserOrderRequest)
  | placeOrder (now : Nat) (req : OrderRequest)
deriving DecidableEq, Repr

/-- Dispatch of a request to its route. -/
def handle (s : Store) : Request → Response × Store
  | .addItem u r f q => addItem s u r f q
  | .setItemQuantity u f q => setItemQuantity s u f q
  | .setItemQuantityByLineId u i q => setItemQuantityByLineId s u i q
  | .removeLineById u i => removeLineById s u i
  | .removeLineByFoodId u f => removeLineByFoodId s u f
  | .clearCart u => clearCart s u
  | .createUserOrder now u req => createUserOrder s now u req
  | .placeOrder now req => placeOrder s now req

/-- The store after a sequence of requests, served one after the other. -/
def run (s : Store) : List Request → Store
  | [] => s
  | r :: rs => run (handle s r).2 rs

/-- The store after a sequence of signups. -/
def runSignups (s : Store) : List SignupRequest → Store
  | [] => s
  | r :: rs => runSignups (createAccount s r).2 rs

/-! ## Predicates of the claims -/

/-- The value of a cart's lines at the food prices of the store: the sum of
`quantity * price`, `none` when a line's food is missing or has no price. -/
def linesValue (s : Store) : List CartItem → JsNum
  | [] => some 0
  | item :: rest =>
    jsAdd (jsMul (some item.quantity) ((findFood s item.foodId).bind (fun f => f.price)))
      (linesValue s rest)

/-- At most one cart document per user. -/
def OneCartPerUser (s : Store) : Prop := (s.carts.map (fun c => c.userId)).Nodup

/-- The guarantee of the database on `_id` in the cart collection: no two
documents share one, and the identifier supply is ahead of all of them. -/
def CartIdsFresh (s : Store) : Prop :=
  (s.carts.map (fun c => c._id)).Nodup ∧ ∀ i ∈ s.carts.map (fun c => c._id), i < s.nextId

/-- No two accounts share an email. -/
def EmailsDistinct (s : Store) : Prop := (s.users.map (fun u => u.email)).Nodup

instance (s : Store) : Decidable (OneCartPerUser s) := by
  unfold OneCartPerUser; infer_instance

instance (s : Store) : Decidable (CartIdsFresh s) := by
  unfold CartIdsFresh; infer_instance

instance (s : Store) : Decidable (EmailsDistinct s) := by
  unfold EmailsDistinct; infer_instance

/-! ## Sample data -/

/-- A store with one restaurant, one food of price 10 and no cart. -/
def sampleStore : Store :=
  { users := [], restaurants := [⟨7, "Roma", 4, 1, []⟩], foods := [⟨3, "Pizza", some 10⟩],
    carts := [], orders := [], nextId := 100 }

/-- The sample store after user 1 put two pizzas of restaurant 7 in the cart. -/
def sampleStoreWithCart : Store :=
  { sampleStore with carts := [⟨100, 1, 7, [⟨101, 3, 2⟩], 20⟩], nextId := 102 }

/-- An order of user 1 at restaurant 7 with the given status. -/
def sampleOrder (status : String) : Order :=
  { _id := 500, userId := 1, restaurantId := 7, items := [⟨3, some "Pizza", some 10, some 2⟩],
    total := 20, status := status, createdAt := 0,
    customerName := some "Ann", customerAddress := some "1 Main St", customerPhone := some "555",
    restaurantName := some "Roma", restaurantAddress := some "2 High St",
    restaurantPhone := some "777" }

/-- The sample store holding one order that delivery already confirmed. -/
def sampleStoreConfirmed : Store :=
  { sampleStore with orders := [sampleOrder confirmedByDelivery], nextId := 501 }

/-- A complete checkout request of user 1 at restaurant 7 with the given total. -/
def sampleRequest (total : Int) : OrderRequest :=
  { userId := some 1, restaurantId := some 7,
    items := some [⟨3, some "Pizza", some 10, some 2⟩], total := some total,
    customerName := some "Ann", customerAddress := some "1 Main St", customerPhone := some "555",
    restaurantName := some "Roma", restaurantAddress := some "2 High St",
    restaurantPhone := some "777" }

/-- Twelve restaurants, stored with the ratings 1, 12, 3, 10, 5, 8, 7, 6, 9, 4, 11, 2. -/
def sampleStoreRated : Store :=
  { sampleStore with
      restaurants := [⟨1, "a", 1, 0, []⟩, ⟨2, "b", 12, 0, []⟩, ⟨3, "c", 3, 0, []⟩,
        ⟨4, "d", 10, 0, []⟩, ⟨5, "e", 5, 0, []⟩, ⟨6, "f", 8, 0, []⟩, ⟨7, "g", 7, 0, []⟩,
        ⟨8, "h", 6, 0, []⟩, ⟨9, "i", 9, 0, []⟩, ⟨10, "j", 4, 0, []⟩, ⟨11, "k", 11, 0, []⟩,
        ⟨12, "l", 2, 0, []⟩] }

/-- The signup of an account with the given email. -/
def sampleSignup (email : String) : SignupRequest :=
  { name := "Ann", phone := "555", location := "1 Main St", email := email, password := "pw",
    label := "customer", file := some ⟨[1, 2], "image/png"⟩ }


/-! ## Lemmas on the collection primitives -/

theorem updateFirst_append_right {α : Type} (p : α → Bool) (f : α → α) (l l2 : List α)
    (h : ∀ x ∈ l, p x = false) : updateFirst p f (l ++ l2) = l ++ updateFirst p f l2 := by
  induction l with
  | nil => rfl
  | cons x xs ih =>
    have hx : p x = false := h x (List.mem_cons_self x xs)
    have hxs : ∀ y ∈ xs, p y = false := fun y hy => h y (List.mem_cons_of_mem x hy)
    simp [updateFirst, hx, ih hxs]

theorem map_updateFirst {α β : Type} (p : α → Bool) (f : α → α) (g : α → β)
    (hg : ∀ x, g (f x) = g x) (l : List α) : (updateFirst p f l).map g = l.map g := by
  induction l with
  | nil => rfl
  | cons x xs ih =>
    by_cases hx : p x = true
    · simp [updateFirst, hx, hg]
    · simp [updateFirst, hx, ih]

theorem find?_append_none {α : Type} (p : α → Bool) (l l2 : List α)
    (h : l.find? p = none) : (l ++ l2).find? p = l2.find? p := by
  simp [List.find?_append, h]

theorem addItem_fresh_cart (s : Store) (userId restaurantId foodId : Id) (food : Food)
    (p q : Int) (hno : findCart s userId = none)
    (hfood : findFood s foodId = some food) (hp : food.price = some p) :
    addItem s userId restaurantId foodId q =
      (⟨201, .cart ⟨s.nextId, userId, restaurantId, [⟨s.nextId + 1, foodId, q⟩], 0 + p * q⟩⟩,
        { s with nextId := s.nextId + 1 + 1,
                 carts := s.carts ++
                   [⟨s.nextId, userId, restaurantId, [⟨s.nextId + 1, foodId, q⟩], 0 + p * q⟩] }) := by
  have hfood2 : findFood { s with nextId := s.nextId + 1 } foodId = some food := hfood
  simp [addItem, storeLine, loadCartFor, hno, cartOrNew, hfood2, putLine, CartDoc.setItems,
    CartDoc.setTotal, jsAdd, jsMul, hp, saveCart]

/-! ## Binary64 on safe integers -/

theorem bitLengthAux_spec (fuel : Nat) : ∀ n, n < 2 ^ fuel →
    n < 2 ^ bitLengthAux fuel n ∧ (n ≠ 0 → 1 ≤ bitLengthAux fuel n ∧
      2 ^ (bitLengthAux fuel n - 1) ≤ n) := by
  induction fuel with
  | zero =>
    intro n hn
    have h0 : n = 0 := by simpa using hn
    subst h0
    simp [bitLengthAux]
  | succ fuel ih =>
    intro n hn
    by_cases h0 : n = 0
    · subst h0
      simp [bitLengthAux]
    · have hhalf : n / 2 < 2 ^ fuel := by
        rw [Nat.pow_succ] at hn
        omega
      obtain ⟨hlt, hge⟩ := ih (n / 2) hhalf
      have heq : bitLengthAux (fuel + 1) n = bitLengthAux fuel (n / 2) + 1 := by
        simp [bitLengthAux, h0]
      rw [heq]
      refine ⟨?_, fun _ => ⟨Nat.le_add_left 1 _, ?_⟩⟩
      · rw [Nat.pow_succ]
        omega
      · rw [Nat.add_sub_cancel]
        by_cases hh : n / 2 = 0
        · have hb : bitLengthAux fuel (n / 2) = 0 := by
            rw [hh]
            cases fuel <;> simp [bitLengthAux]
          rw [hb]
          simp
          omega
        · obtain ⟨h1, h2⟩ := hge hh
          have hp : 2 ^ bitLengthAux fuel (n / 2)
              = 2 * 2 ^ (bitLengthAux fuel (n / 2) - 1) := by
            rw [← Nat.pow_succ']
            congr 1
            omega
          rw [hp]
          omega

theorem wordCount_spec (fuel : Nat) : ∀ n, n ≤ fuel →
    n / 2 ^ (64 * wordCount fuel n) < 2 ^ 64 ∧
      (n ≠ 0 → n / 2 ^ (64 * wordCount fuel n) ≠ 0) := by
  induction fuel with
  | zero =>
    intro n hn
    have h0 : n = 0 := Nat.le_zero.1 hn
    subst h0
    simp [wordCount]
  | succ fuel ih =>
    intro n hn
    by_cases hsmall : n < 2 ^ 64
    · have heq : wordCount (fuel + 1) n = 0 := by
        simp only [wordCount, hsmall, if_true]
      rw [heq]
      simpa using hsmall
    · have hpos : 0 < 2 ^ 64 := Nat.two_pow_pos 64
      have hdiv : n / 2 ^ 64 ≤ fuel := by
        have : n / 2 ^ 64 < n := Nat.div_lt_self (by omega) (by norm_num)
        omega
      have hne : n / 2 ^ 64 ≠ 0 := by
        have : 2 ^ 64 ≤ n := Nat.le_of_not_lt hsmall
        exact Nat.ne_of_gt (Nat.div_pos this hpos)
      obtain ⟨h1, h2⟩ := ih (n / 2 ^ 64) hdiv
      have heq : wordCount (fuel + 1) n = wordCount fuel (n / 2 ^ 64) + 1 := by
        simp only [wordCount, hsmall, if_false]
      have hsplit : n / 2 ^ (64 * (wordCount fuel (n / 2 ^ 64) + 1))
          = n / 2 ^ 64 / 2 ^ (64 * wordCount fuel (n / 2 ^ 64)) := by
        rw [Nat.mul_add, Nat.mul_one, Nat.add_comm, Nat.pow_add, Nat.div_div_eq_div_mul]
      rw [heq, hsplit]
      exact ⟨h1, fun _ => h2 hne⟩

theorem bitLength_spec (n : Nat) (h : n ≠ 0) :
    1 ≤ bitLength n ∧ 2 ^ (bitLength n - 1) ≤ n ∧ n < 2 ^ bitLength n := by
  obtain ⟨hw1, hw2⟩ := wordCount_spec n n (Nat.le_refl n)
  have hr := hw2 h
  obtain ⟨h1, h2⟩ := bitLengthAux_spec 64 _ hw1
  obtain ⟨h3, h4⟩ := h2 hr
  have hb : bitLength n
      = 64 * wordCount n n + bitLengthAux 64 (n / 2 ^ (64 * wordCount n n)) := rfl
  have hpos : 0 < 2 ^ (64 * wordCount n n) := Nat.two_pow_pos _
  have hmod := Nat.mod_lt n hpos
  have hdm := Nat.div_add_mod n (2 ^ (64 * wordCount n n))
  rw [hb]
  generalize 64 * wordCount n n = c at *
  generalize n / 2 ^ c = r at *
  generalize bitLengthAux 64 r = b at *
  refine ⟨by omega, ?_, ?_⟩
  · have e : c + b - 1 = c + (b - 1) := by omega
    rw [e, Nat.pow_add]
    have : 2 ^ c * 2 ^ (b - 1) ≤ 2 ^ c * r := Nat.mul_le_mul_left _ h4
    omega
  · rw [Nat.pow_add]
    have : 2 ^ c * (r + 1) ≤ 2 ^ c * 2 ^ b := Nat.mul_le_mul_left _ h1
    rw [Nat.mul_add, Nat.mul_one] at this
    omega

theorem bitLength_unique (n k : Nat) (hk : 1 ≤ k) (hlo : 2 ^ (k - 1) ≤ n) (hhi : n < 2 ^ k) :
    bitLength n = k := by
  have hn : n ≠ 0 := by
    intro h0
    rw [h0] at hlo
    exact absurd hlo (by simp)
  obtain ⟨h1, h2, h3⟩ := bitLength_spec n hn
  by_contra hne
  rcases Nat.lt_or_gt_of_ne hne with hlt | hgt
  · have : 2 ^ bitLength n ≤ 2 ^ (k - 1) := Nat.pow_le_pow_right (by decide) (by omega)
    omega
  · have : 2 ^ k ≤ 2 ^ (bitLength n - 1) := Nat.pow_le_pow_right (by decide) (by omega)
    omega

theorem bitLength_mul_pow (n j : Nat) (h : n ≠ 0) :
    bitLength (n * 2 ^ j) = bitLength n + j := by
  obtain ⟨h1, h2, h3⟩ := bitLength_spec n h
  refine bitLength_unique _ _ (by omega) ?_ ?_
  · have e : bitLength n + j - 1 = (bitLength n - 1) + j := by omega
    rw [e, Nat.pow_add]
    exact Nat.mul_le_mul_right _ h2
  · rw [Nat.pow_add]
    exact Nat.mul_lt_mul_of_pos_right h3 (Nat.two_pow_pos j)

/-- Rounding an integer below `2^53`, written with `j` extra binary zeros, is
exact: the result is the integer itself in the form of the encoding. -/
theorem round_scaled (neg : Bool) (n j : Nat) (h0 : n ≠ 0) (hn : n < 2 ^ 53) :
    F64.round neg (n * 2 ^ j) (-(j : Int)) =
      .finite neg (n * 2 ^ (53 - bitLength n)) ((bitLength n : Int) - 53) := by
  obtain ⟨h1, h2, h3⟩ := bitLength_spec n h0
  have hb : bitLength n ≤ 53 := by
    by_contra hc
    have : 2 ^ 53 ≤ 2 ^ (bitLength n - 1) := Nat.pow_le_pow_right (by decide) (by omega)
    omega
  have hm : n * 2 ^ j ≠ 0 := Nat.mul_ne_zero h0 (Nat.ne_of_gt (Nat.two_pow_pos j))
  have hbl : bitLength (n * 2 ^ j) = bitLength n + j := bitLength_mul_pow n j h0
  have he1 : max (-(j : Int) + ((bitLength (n * 2 ^ j) : Nat) : Int) - 53) (-1074)
      = (bitLength n : Int) - 53 := by
    rw [hbl]
    omega
  unfold F64.round
  simp only [hm, if_false, he1]
  by_cases hcase : (bitLength n : Int) - 53 ≤ -(j : Int)
  · have hnot : ¬ (971 : Int) < (bitLength n : Int) - 53 := by omega
    have hexp : (-(j : Int) - ((bitLength n : Int) - 53)).toNat = 53 - bitLength n - j := by
      omega
    simp only [hcase, if_true, hnot, if_false, hexp]
    congr 1
    rw [Nat.mul_assoc, ← Nat.pow_add]
    congr 2
    omega
  · obtain ⟨k, hjk⟩ : ∃ k, j = (53 - bitLength n) + k := ⟨j - (53 - bitLength n), by omega⟩
    have hk0 : 0 < k := by omega
    have hk : ((bitLength n : Int) - 53 - -(j : Int)).toNat = k := by omega
    have hq : n * 2 ^ j / 2 ^ k = n * 2 ^ (53 - bitLength n) := by
      rw [hjk, Nat.pow_add, ← Nat.mul_assoc]
      exact Nat.mul_div_cancel _ (Nat.two_pow_pos _)
    have hr : n * 2 ^ j % 2 ^ k = 0 := by
      rw [hjk, Nat.pow_add, ← Nat.mul_assoc]
      exact Nat.mul_mod_left _ _
    have hlt : n * 2 ^ (53 - bitLength n) < 2 ^ 53 := by
      have : n * 2 ^ (53 - bitLength n) < 2 ^ bitLength n * 2 ^ (53 - bitLength n) :=
        Nat.mul_lt_mul_of_pos_right h3 (Nat.two_pow_pos _)
      rw [← Nat.pow_add] at this
      have e : bitLength n + (53 - bitLength n) = 53 := by omega
      rw [e] at this
      exact this
    have hpos : (0 : Nat) ≠ 2 ^ k := Nat.ne_of_lt (Nat.two_pow_pos k)
    have h53 : (2 : Nat) ^ 53 = 9007199254740992 := by norm_num
    have hne53 : n * 2 ^ (53 - bitLength n) ≠ 9007199254740992 := by omega
    have hnot : ¬ (971 : Int) < (bitLength n : Int) - 53 := by omega
    simp only [hcase, if_false, hk, hq, hr]
    simp [hpos, hne53, hnot]

theorem natAbs_lt_of_safe (n : Int) (h : SafeInt n) : n.natAbs < 2 ^ 53 := by
  have h53 : (2 : Nat) ^ 53 = 9007199254740992 := by norm_num
  unfold SafeInt at h
  omega

/-- The binary64 value of a non-zero safe integer. -/
theorem ofInt_of_ne_zero (n : Int) (h : SafeInt n) (h0 : n ≠ 0) :
    F64.ofInt n = .finite (decide (n < 0)) (n.natAbs * 2 ^ (53 - bitLength n.natAbs))
      ((bitLength n.natAbs : Int) - 53) := by
  have := round_scaled (decide (n < 0)) n.natAbs 0 (by omega) (natAbs_lt_of_safe n h)
  simpa [F64.ofInt] using this

theorem bitLength_le_of_lt (n : Nat) (h0 : n ≠ 0) (hn : n < 2 ^ 53) : bitLength n ≤ 53 := by
  obtain ⟨h1, h2, h3⟩ := bitLength_spec n h0
  by_contra hc
  have : 2 ^ 53 ≤ 2 ^ (bitLength n - 1) := Nat.pow_le_pow_right (by decide) (by omega)
  omega

theorem encodes_ofInt (n : Int) (h : SafeInt n) : Encodes (F64.ofInt n) n := by
  by_cases h0 : n = 0
  · subst h0
    exact ⟨false, 0, 1074, by decide, by rw [Int.zero_mul]; rfl⟩
  · have hb := bitLength_le_of_lt n.natAbs (by omega) (natAbs_lt_of_safe n h)
    refine ⟨decide (n < 0), n.natAbs * 2 ^ (53 - bitLength n.natAbs), 53 - bitLength n.natAbs,
      ?_, ?_⟩
    · rw [ofInt_of_ne_zero n h h0]
      congr 1
      omega
    · by_cases hneg : n < 0
      · have hA : (n.natAbs : Int) = -n := by omega
        simp only [hneg, decide_True, if_true]
        rw [Nat.cast_mul, hA]
        push_cast
        ring
      · have hA : (n.natAbs : Int) = n := by omega
        simp only [hneg, decide_False]
        rw [Nat.cast_mul, hA]
        push_cast
        simp

theorem signed_spec (s : Bool) (m k : Nat) (n : Int)
    (h : (if s then -(m : Int) else (m : Int)) = n * 2 ^ k) :
    m = n.natAbs * 2 ^ k ∧ (n ≠ 0 → s = decide (n < 0)) := by
  have hpos : (0 : Int) < 2 ^ k := pow_pos (by decide) k
  have habs : m = n.natAbs * 2 ^ k := by
    have := congrArg Int.natAbs h
    rw [Int.natAbs_mul, Int.natAbs_pow] at this
    cases s <;> simpa using this
  refine ⟨habs, ?_⟩
  intro hn
  cases s with
  | false =>
    have hnn : 0 ≤ n * 2 ^ k := by
      rw [← h]
      simp
    have : 0 ≤ n := nonneg_of_mul_nonneg_left hnn hpos
    simp
    omega
  | true =>
    have hnn : n * 2 ^ k ≤ 0 := by
      rw [← h]
      simp
    have : n ≤ 0 := by
      by_contra hc
      have : 0 < n * 2 ^ k := mul_pos (by omega) hpos
      omega
    simp
    omega

theorem sign_mul (a b : Int) (ha : a ≠ 0) (hb : b ≠ 0) :
    (decide (a < 0) != decide (b < 0)) = decide (a * b < 0) := by
  rcases lt_or_gt_of_ne ha with h1 | h1 <;> rcases lt_or_gt_of_ne hb with h2 | h2
  · have := mul_pos_of_neg_of_neg h1 h2
    simp [h1, h2, not_lt.2 (le_of_lt this)]
  · have := mul_neg_of_neg_of_pos h1 h2
    simp [h1, not_lt.2 (le_of_lt h2), this]
  · have := mul_neg_of_pos_of_neg h1 h2
    simp [h2, not_lt.2 (le_of_lt h1), this]
  · have := mul_pos h1 h2
    simp [not_lt.2 (le_of_lt h1), not_lt.2 (le_of_lt h2), not_lt.2 (le_of_lt this)]

/-- The binary64 product of two integers is their product when that is safe. -/
theorem encodes_f64Mul (x y : F64) (a b : Int) (hx : Encodes x a) (hy : Encodes y b)
    (hab : SafeInt (a * b)) : Encodes (f64Mul x y) (a * b) := by
  obtain ⟨sx, mx, kx, rfl, hvx⟩ := hx
  obtain ⟨sy, my, ky, rfl, hvy⟩ := hy
  obtain ⟨hmx, hsx⟩ := signed_spec sx mx kx a hvx
  obtain ⟨hmy, hsy⟩ := signed_spec sy my ky b hvy
  have hmul : f64Mul (.finite sx mx (-(kx : Int))) (.finite sy my (-(ky : Int)))
      = F64.round (sx != sy) (mx * my) (-(kx : Int) + -(ky : Int)) := rfl
  rw [hmul]
  by_cases h0 : a * b = 0
  · have hz : mx * my = 0 := by
      rcases Int.mul_eq_zero.1 h0 with h | h
      · rw [hmx, h]; simp
      · rw [hmy, h]; simp
    rw [hz, h0]
    exact ⟨sx != sy, 0, 1074, by simp [F64.round], by rw [Int.zero_mul]; cases (sx != sy) <;> rfl⟩
  · have ha : a ≠ 0 := fun h => h0 (by rw [h, Int.zero_mul])
    have hb : b ≠ 0 := fun h => h0 (by rw [h, Int.mul_zero])
    have hprod : mx * my = (a * b).natAbs * 2 ^ (kx + ky) := by
      rw [hmx, hmy, Int.natAbs_mul, Nat.pow_add]
      ring
    have hexp : (-(kx : Int) + -(ky : Int)) = -((kx + ky : Nat) : Int) := by omega
    have hne : (a * b).natAbs ≠ 0 := by omega
    rw [hprod, hexp, round_scaled _ _ _ hne (natAbs_lt_of_safe _ hab), hsx ha, hsy hb,
      sign_mul a b ha hb, ← ofInt_of_ne_zero (a * b) hab h0]
    exact encodes_ofInt (a * b) hab

/-- The form of the binary64 value of a safe integer, with its sign. -/
theorem ofInt_form (t : Int) (ht : SafeInt t) :
    ∃ (m k : Nat), F64.ofInt t = .finite (decide (t < 0)) m (-(k : Int)) ∧
      (if decide (t < 0) then -(m : Int) else (m : Int)) = t * 2 ^ k := by
  obtain ⟨s, m, k, hx, hv⟩ := encodes_ofInt t ht
  by_cases h0 : t = 0
  · subst h0
    exact ⟨0, 1074, by decide, by rw [Int.zero_mul]; rfl⟩
  · have hs := (signed_spec s m k t hv).2 h0
    subst hs
    exact ⟨m, k, hx, hv⟩

theorem scaled_term (s : Bool) (m k j : Nat) (n : Int)
    (h : (if s then -(m : Int) else (m : Int)) = n * 2 ^ k) :
    (if s then (-1 : Int) else 1) *
        ((m * 2 ^ (-(k : Int) - min (-(k : Int)) (-(j : Int))).toNat : Nat) : Int)
      = n * 2 ^ (max k j) := by
  have he : (-(k : Int) - min (-(k : Int)) (-(j : Int))).toNat = max k j - k := by omega
  have hk : max k j = k + (max k j - k) := by omega
  rw [he]
  conv_rhs => rw [hk, pow_add, ← mul_assoc, ← h]
  cases s <;> simp

/-- The binary64 sum of a safe integer and an integer is their sum when that is safe. -/
theorem f64Add_ofInt (t c : Int) (y : F64) (ht : SafeInt t) (hy : Encodes y c)
    (htc : SafeInt (t + c)) : f64Add (F64.ofInt t) y = F64.ofInt (t + c) := by
  obtain ⟨mx, kx, hx, hvx⟩ := ofInt_form t ht
  obtain ⟨sy, my, ky, rfl, hvy⟩ := hy
  rw [hx]
  have hpos : (0 : Int) < 2 ^ (max kx ky) := pow_pos (by decide) _
  have ha := scaled_term (decide (t < 0)) mx kx ky t hvx
  have hb := scaled_term sy my ky kx c hvy
  rw [min_comm, max_comm] at hb
  have hsum : (if decide (t < 0) then (-1 : Int) else 1) *
        ((mx * 2 ^ (-(kx : Int) - min (-(kx : Int)) (-(ky : Int))).toNat : Nat) : Int) +
      (if sy then (-1 : Int) else 1) *
        ((my * 2 ^ (-(ky : Int) - min (-(kx : Int)) (-(ky : Int))).toNat : Nat) : Int)
      = (t + c) * 2 ^ (max kx ky) := by
    rw [ha, hb]; ring
  have hg : min (-(kx : Int)) (-(ky : Int)) = -((max kx ky : Nat) : Int) := by omega
  have hadd : f64Add (.finite (decide (t < 0)) mx (-(kx : Int))) (.finite sy my (-(ky : Int)))
      = if (t + c) * 2 ^ (max kx ky) = 0 then .finite (decide (t < 0) && sy) 0 (-1074)
        else F64.round (decide ((t + c) * 2 ^ (max kx ky) < 0))
          ((t + c) * 2 ^ (max kx ky)).natAbs (-((max kx ky : Nat) : Int)) := by
    simp only [f64Add]
    rw [hsum, hg]
  rw [hadd]
  by_cases h0 : t + c = 0
  · have hz : (t + c) * 2 ^ (max kx ky) = 0 := by rw [h0, Int.zero_mul]
    rw [if_pos hz, h0]
    have hsign : (decide (t < 0) && sy) = false := by
      by_cases htn : t < 0
      · have hc : c ≠ 0 := by omega
        have := (signed_spec sy my ky c hvy).2 hc
        rw [this]
        have : ¬ c < 0 := by omega
        simp [this]
      · simp [htn]
    rw [hsign]
    decide
  · have hnz : (t + c) * 2 ^ (max kx ky) ≠ 0 := mul_ne_zero h0 (ne_of_gt hpos)
    have hneg : decide ((t + c) * 2 ^ (max kx ky) < 0) = decide (t + c < 0) := by
      by_cases hlt : t + c < 0
      · have : (t + c) * 2 ^ (max kx ky) < 0 := mul_neg_of_neg_of_pos hlt hpos
        simp [hlt, this]
      · have : 0 ≤ (t + c) * 2 ^ (max kx ky) := mul_nonneg (by omega) (le_of_lt hpos)
        simp [hlt, not_lt.2 this]
    have habs : ((t + c) * 2 ^ (max kx ky)).natAbs = (t + c).natAbs * 2 ^ (max kx ky) := by
      rw [Int.natAbs_mul, Int.natAbs_pow]
      rfl
    have hne : (t + c).natAbs ≠ 0 := by omega
    rw [if_neg hnz, hneg, habs, round_scaled _ _ _ hne (natAbs_lt_of_safe _ htc),
      ← ofInt_of_ne_zero (t + c) htc h0]

/-- On safe integers whose products and sums are safe, two `addItem` calls leave
in binary64 the total that the exact integers give. -/
theorem runningTotal64_ofInt (p q1 q2 : Int) (hp : SafeInt p) (hq1 : SafeInt q1)
    (hq2 : SafeInt q2) (h1 : SafeInt (p * q1)) (h2 : SafeInt (p * q2))
    (h12 : SafeInt (p * q1 + p * q2)) :
    runningTotal64 (F64.ofInt p) [F64.ofInt q1, F64.ofInt q2] = F64.ofInt (p * (q1 + q2)) := by
  have e0 : F64.ofNat 0 = F64.ofInt 0 := by decide
  have hm1 := encodes_f64Mul _ _ p q1 (encodes_ofInt p hp) (encodes_ofInt q1 hq1) h1
  have hm2 := encodes_f64Mul _ _ p q2 (encodes_ofInt p hp) (encodes_ofInt q2 hq2) h2
  have h01 : SafeInt (0 + p * q1) := by rw [Int.zero_add]; exact h1
  have hs1 := f64Add_ofInt 0 (p * q1) _ (by decide) hm1 h01
  rw [Int.zero_add] at hs1
  have hs2 := f64Add_ofInt (p * q1) (p * q2) _ h1 hm2 h12
  simp only [runningTotal64, List.foldl, e0, hs1, hs2]
  congr 1
  ring

/-! ## Cart accumulation and restaurant switch -/

set_option exponentiation.threshold 2000 in
/-- C1, as stated, fails: for the price 0.99 (`price099` is the binary64 value
nearest to 99/100) and the quantities 2 then 3, the total of the cart, which the
code computes as (0 + 0.99 * 2) + 0.99 * 3, is 4.949999999999999, one unit in the
last place below 0.99 * (2 + 3) = 4.95. -/
theorem accumulated_total_differs_from_product :
    price099 = .finite false 8917127262193582 (-53) ∧
      (100 * 8917127262193582 ≤ 99 * 2 ^ 53 ∧ 99 * 2 ^ 53 ≤ 100 * 8917127262193582 + 50) ∧
      runningTotal64 price099 [F64.ofNat 2, F64.ofNat 3]
        = .finite false 5573204538870988 (-50) ∧
      f64Mul price099 (f64Add (F64.ofNat 2) (F64.ofNat 3))
        = .finite false 5573204538870989 (-50) ∧
      runningTotal64 price099 [F64.ofNat 2, F64.ofNat 3]
        ≠ f64Mul price099 (f64Add (F64.ofNat 2) (F64.ofNat 3)) := by
  have hsum : runningTotal64 price099 [F64.ofNat 2, F64.ofNat 3]
      = .finite false 5573204538870988 (-50) := by decide
  have hprod : f64Mul price099 (f64Add (F64.ofNat 2) (F64.ofNat 3))
      = .finite false 5573204538870989 (-50) := by decide
  refine ⟨rfl, by decide, hsum, hprod, ?_⟩
  rw [hsum, hprod]
  decide

/-- C1, amended. For a user without a cart, an existing food whose price `p` is
an integer and integer quantities `q1`, `q2`, where `p`, `q1`, `q2`, `q1 + q2`,
`p * q1`, `p * q2` and `p * q1 + p * q2` are safe integers: two `addItem` calls
for that food at one restaurant both answer 201 and leave the user one cart,
appended to the collection, whose single line is the food with quantity
`q1 + q2` and whose total is `p * (q1 + q2)`; the binary64 arithmetic of the
code gives that quantity and that total on these values without rounding. -/
theorem addItem_twice_accumulates (s : Store) (userId restaurantId foodId : Id) (food : Food)
    (p q1 q2 : Int) (hids : CartIdsFresh s) (hno : findCart s userId = none)
    (hfood : findFood s foodId = some food) (hp : food.price = some p)
    (hsp : SafeInt p) (hsq1 : SafeInt q1) (hsq2 : SafeInt q2) (hsq : SafeInt (q1 + q2))
    (hs1 : SafeInt (p * q1)) (hs2 : SafeInt (p * q2)) (hs12 : SafeInt (p * q1 + p * q2)) :
    let r1 := addItem s userId restaurantId foodId q1
    let r2 := addItem r1.2 userId restaurantId foodId q2
    let cart : Cart :=
      ⟨s.nextId, userId, restaurantId, [⟨s.nextId + 1, foodId, q1 + q2⟩], p * (q1 + q2)⟩
    r1.1.status = 201 ∧ r2.1 = ⟨201, .cart cart⟩ ∧ r2.2.carts = s.carts ++ [cart] ∧
      findCart r2.2 userId = some cart ∧
      f64Add (F64.ofInt q1) (F64.ofInt q2) = F64.ofInt (q1 + q2) ∧
      runningTotal64 (F64.ofInt p) [F64.ofInt q1, F64.ofInt q2]
        = F64.ofInt (p * (q1 + q2)) := by
  intro r1 r2 cart
  have h1 : r1 = _ := addItem_fresh_cart s userId restaurantId foodId food p q1 hno hfood hp
  have hfresh : ∀ x ∈ s.carts, (x._id == s.nextId) = false := by
    intro x hx
    have hlt : x._id < s.nextId := hids.2 x._id (List.mem_map.2 ⟨x, hx, rfl⟩)
    simpa using Nat.ne_of_lt hlt
  have hnone : s.carts.find? (fun c => c.userId == userId) = none := hno
  have hfood1 : findFood r1.2 foodId = some food := by rw [h1]; exact hfood
  have hcart1 : findCart r1.2 userId
      = some ⟨s.nextId, userId, restaurantId, [⟨s.nextId + 1, foodId, q1⟩], 0 + p * q1⟩ := by
    rw [h1]
    simp [findCart, find?_append_none _ _ _ hnone]
  have hcarts1 : r1.2.carts
      = s.carts ++ [⟨s.nextId, userId, restaurantId, [⟨s.nextId + 1, foodId, q1⟩], 0 + p * q1⟩] := by
    rw [h1]
  have h2 : r2 = (⟨201, .cart cart⟩, { r1.2 with carts := s.carts ++ [cart] }) := by
    show addItem r1.2 userId restaurantId foodId q2 = _
    simp [addItem, storeLine, loadCartFor, hcart1, cartOrNew, hfood1, putLine, CartDoc.setItems,
      CartDoc.setTotal, jsAdd, jsMul, hp, saveCart, updateFirst, hcarts1,
      updateFirst_append_right _ _ _ _ hfresh, cart]
    ring
  refine ⟨by rw [h1], by rw [h2], by rw [h2], ?_,
    f64Add_ofInt q1 q2 _ hsq1 (encodes_ofInt q2 hsq2) hsq,
    runningTotal64_ofInt p q1 q2 hsp hsq1 hsq2 hs1 hs2 hs12⟩
  rw [h2]
  simp [findCart, find?_append_none _ _ _ hnone, cart]

theorem addItem_twice_accumulates_witness :
    CartIdsFresh sampleStore ∧ findCart sampleStore 1 = none ∧
      (addItem (addItem sampleStore 1 7 3 2).2 1 7 3 3).2.carts
        = [⟨100, 1, 7, [⟨101, 3, 5⟩], 50⟩] ∧
      runningTotal64 (F64.ofInt 10) [F64.ofInt 2, F64.ofInt 3] = F64.ofInt 50 :=
  have h := addItem_twice_accumulates sampleStore 1 7 3 ⟨3, "Pizza", some 10⟩ 10 2 3
    (by decide) (by decide) (by decide) rfl (by decide) (by decide) (by decide) (by decide)
    (by decide) (by decide) (by decide)
  ⟨by decide, by decide, h.2.2.1, h.2.2.2.2.2⟩

theorem mem_of_findCart {s : Store} {userId : Id} {c : Cart} (h : findCart s userId = some c) :
    c ∈ s.carts ∧ c.userId = userId := by
  unfold findCart at h
  have hm := List.mem_of_find?_eq_some h
  have hp := List.find?_some h
  exact ⟨hm, by simpa using hp⟩

/-- With pairwise distinct `_id` and pairwise distinct `userId`, deleting by the
`_id` of a stored cart leaves no cart of that cart's user. -/
theorem eraseP_id_no_user (l : List Cart) (a : Cart) (ha : a ∈ l)
    (hid : (l.map (fun c => c._id)).Nodup) (hu : (l.map (fun c => c.userId)).Nodup) :
    ∀ x ∈ l.eraseP (fun c => c._id == a._id), x.userId ≠ a.userId := by
  induction l with
  | nil => cases ha
  | cons y ys ih =>
    rw [List.map_cons, List.nodup_cons] at hid hu
    by_cases hy : y._id = a._id
    · have hya : a = y := by
        rcases List.mem_cons.1 ha with h | h
        · exact h
        · exact absurd (List.mem_map.2 ⟨a, h, hy.symm⟩) hid.1
      subst hya
      intro x hx
      have hx2 : x ∈ ys := by simpa [List.eraseP_cons] using hx
      intro hxu
      exact hu.1 (List.mem_map.2 ⟨x, hx2, hxu⟩)
    · have hays : a ∈ ys := by
        rcases List.mem_cons.1 ha with h | h
        · exact absurd (by rw [h]) hy
        · exact h
      intro x hx
      have hx2 : x = y ∨ x ∈ ys.eraseP (fun c => c._id == a._id) := by
        simpa [List.eraseP_cons, hy] using hx
      rcases hx2 with h | h
      · subst h
        intro hxu
        exact hu.1 (List.mem_map.2 ⟨a, hays, hxu.symm⟩)
      · exact ih hays hid.2 hu.2 x h

theorem filter_eq_nil_of_forall {α : Type} (p : α → Bool) (l : List α)
    (h : ∀ x ∈ l, p x = false) : l.filter p = [] := by
  rw [List.filter_eq_nil_iff]
  intro x hx
  simp [h x hx]

theorem find?_eq_none_of_forall {α : Type} (p : α → Bool) (l : List α)
    (h : ∀ x ∈ l, p x = false) : l.find? p = none := by
  rw [List.find?_eq_none]
  intro x hx
  simp [h x hx]

/-- C2. For a user whose cart is bound to a restaurant other than the requested
one, an existing food of price `p` and a quantity `q`: `addItem` answers 201 and
afterwards the only cart of the user is a new one, bound to the requested
restaurant, whose single line is the food with quantity `q` and whose total is
`p * q`; the stored carts are the former ones without the user's, then the new one. -/
theorem addItem_switch_replaces (s : Store) (userId restaurantId foodId : Id) (old : Cart)
    (food : Food) (p q : Int) (hids : CartIdsFresh s) (hone : OneCartPerUser s)
    (hcart : findCart s userId = some old) (hne : old.restaurantId ≠ restaurantId)
    (hfood : findFood s foodId = some food) (hp : food.price = some p) :
    let r := addItem s userId restaurantId foodId q
    let cart : Cart := ⟨s.nextId, userId, restaurantId, [⟨s.nextId + 1, foodId, q⟩], p * q⟩
    r.1 = ⟨201, .cart cart⟩ ∧
      r.2.carts = s.carts.eraseP (fun c => c._id == old._id) ++ [cart] ∧
      r.2.carts.filter (fun c => c.userId == userId) = [cart] ∧
      findCart r.2 userId = some cart := by
  intro r cart
  obtain ⟨hmem, huser⟩ := mem_of_findCart hcart
  have hgone : ∀ x ∈ s.carts.eraseP (fun c => c._id == old._id),
      (x.userId == userId) = false := by
    intro x hx
    have := eraseP_id_no_user s.carts old hmem hids.1 hone x hx
    rw [huser] at this
    simpa using this
  have hno : findCart (deleteCart s old._id) userId = none :=
    find?_eq_none_of_forall _ _ hgone
  have hfood2 : findFood (deleteCart s old._id) foodId = some food := hfood
  have h2 := addItem_fresh_cart (deleteCart s old._id) userId restaurantId foodId food p q
    hno hfood2 hp
  have hr : r = (⟨201, .cart cart⟩,
      { deleteCart s old._id with
          nextId := s.nextId + 1 + 1,
          carts := s.carts.eraseP (fun c => c._id == old._id) ++ [cart] }) := by
    show addItem s userId restaurantId foodId q = _
    have hload : loadCartFor s userId restaurantId = (deleteCart s old._id, none) := by
      simp [loadCartFor, hcart, hne]
    have hload2 : loadCartFor (deleteCart s old._id) userId restaurantId
        = (deleteCart s old._id, none) := by
      simp [loadCartFor, hno]
    have e : addItem s userId restaurantId foodId q
        = addItem (deleteCart s old._id) userId restaurantId foodId q := by
      simp only [addItem, hload, hload2]
    rw [e, h2]
    simp [cart, deleteCart]
  refine ⟨by rw [hr], by rw [hr], ?_, ?_⟩
  · rw [hr]
    simp [List.filter_append, filter_eq_nil_of_forall _ _ hgone, cart]
  · rw [hr]
    simp [findCart, find?_append_none _ _ _ (find?_eq_none_of_forall _ _ hgone), cart]

theorem addItem_switch_replaces_witness :
    findCart sampleStoreWithCart 1 = some ⟨100, 1, 7, [⟨101, 3, 2⟩], 20⟩ ∧
      (addItem sampleStoreWithCart 1 8 3 4).2.carts = [⟨102, 1, 8, [⟨103, 3, 4⟩], 40⟩] :=
  ⟨by decide,
    (addItem_switch_replaces sampleStoreWithCart 1 8 3 ⟨100, 1, 7, [⟨101, 3, 2⟩], 20⟩
      ⟨3, "Pizza", some 10⟩ 10 4 (by decide) (by decide) (by decide) (by decide) (by decide)
      rfl).2.1⟩

/-! ## The running total -/

/-- C3. From the store without carts, `addItem` of two pizzas of price 10 and
then `setItemQuantityByLineId` of that line to 5 leave a cart whose total is 20
while its lines are worth 50: the total of a reachable cart differs from the sum
of `quantity * price` over its lines. -/
theorem total_differs_from_lines_after_line_update :
    findCart (run sampleStore [.addItem 1 7 3 2, .setItemQuantityByLineId 1 101 5]) 1
        = some ⟨100, 1, 7, [⟨101, 3, 5⟩], 20⟩ ∧
      linesValue (run sampleStore [.addItem 1 7 3 2, .setItemQuantityByLineId 1 101 5])
        [⟨101, 3, 5⟩] = some 50 := by
  decide

/-- The food-keyed quantity update never writes: it answers 404 or 500. -/
theorem setItemQuantity_store (s : Store) (userId foodId : Id) (quantity : Int) :
    (setItemQuantity s userId foodId quantity).2 = s := by
  unfold setItemQuantity
  split
  · rfl
  · split
    · rfl
    · split
      · rfl
      · simp [unpopulatedPrice, jsMul, jsSub, jsAdd, CartDoc.setTotal, CartDoc.setItems, saveCart]

/-- The food-keyed removal never writes: it answers 404 or 500. -/
theorem removeLineByFoodId_store (s : Store) (userId foodId : Id) :
    (removeLineByFoodId s userId foodId).2 = s := by
  unfold removeLineByFoodId
  split
  · rfl
  · split
    · rfl
    · split
      · rfl
      · simp [unpopulatedPrice, jsMul, jsSub, CartDoc.setTotal, CartDoc.setItems, saveCart]

/-- C4. On the cart with the line of two pizzas of price 10 and total 20,
`setItemQuantity` of that food to 5 answers 500 and leaves the cart as it was,
with quantity 2 and total 20. -/
theorem setItemQuantity_fails_on_existing_line :
    findCart sampleStoreWithCart 1 = some ⟨100, 1, 7, [⟨101, 3, 2⟩], 20⟩ ∧
      findFood sampleStoreWithCart 3 = some ⟨3, "Pizza", some 10⟩ ∧
      setItemQuantity sampleStoreWithCart 1 3 5 = (internalError, sampleStoreWithCart) := by
  decide

/-! ## Order status -/

theorem updateFirst_of_find? {α : Type} (p : α → Bool) (f : α → α) (l : List α) (a : α)
    (h : l.find? p = some a) :
    ∃ pre post, l = pre ++ a :: post ∧ (∀ x ∈ pre, p x = false) ∧
      updateFirst p f l = pre ++ f a :: post := by
  induction l with
  | nil => simp at h
  | cons y ys ih =>
    by_cases hy : p y = true
    · have hya : y = a := by simpa [List.find?_cons, hy] using h
      subst hya
      exact ⟨[], ys, rfl, by simp, by simp [updateFirst, hy]⟩
    · have hys : ys.find? p = some a := by simpa [List.find?_cons, hy] using h
      obtain ⟨pre, post, h1, h2, h3⟩ := ih hys
      refine ⟨y :: pre, post, by simp [h1], ?_, by simp [updateFirst, hy, h3]⟩
      intro x hx
      rcases List.mem_cons.1 hx with hxy | hxp
      · subst hxy; simpa using hy
      · exact h2 x hxp

/-- C5. `updateStatus` answers 400 'Order already confirmed by delivery' exactly
when the new status is `Confirmed_by_delivery` and the order exists with that
status already; when it does, the store is left as it was. -/
theorem updateStatus_conflict_iff (s : Store) (orderId : Id) (status : String) :
    ((updateStatus s orderId status).1 = reply 400 "Order already confirmed by delivery" ↔
      (status = confirmedByDelivery ∧
        ∃ o, findOrder s orderId = some o ∧ o.status = confirmedByDelivery)) ∧
    ((updateStatus s orderId status).1 = reply 400 "Order already confirmed by delivery" →
      (updateStatus s orderId status).2 = s) := by
  unfold updateStatus
  cases hfind : findOrder s orderId with
  | none => simp [reply]
  | some o =>
    by_cases h1 : status = confirmedByDelivery
    · by_cases h2 : o.status = confirmedByDelivery
      · simp [h1, h2]
      · simp [h1, h2, reply]
    · simp [h1, reply]

theorem updateStatus_conflict_iff_witness :
    (updateStatus sampleStoreConfirmed 500 confirmedByDelivery).1
        = reply 400 "Order already confirmed by delivery" ∧
      (updateStatus sampleStoreConfirmed 500 confirmedByDelivery).2 = sampleStoreConfirmed :=
  ⟨by decide, (updateStatus_conflict_iff sampleStoreConfirmed 500 confirmedByDelivery).2
    (by decide)⟩

/-- C6. For an existing order and a new status that is not the second
`Confirmed_by_delivery`, `updateStatus` answers 200 with the order carrying the
new status, stores that order in place of the old one, and keeps every other
order, every other field and every other collection; for an order identifier
that names no order it answers 404 and leaves the store as it was. -/
theorem updateStatus_sets_status_only (s : Store) (orderId : Id) (status : String) :
    (∀ o, findOrder s orderId = some o →
      ¬ (o.status = confirmedByDelivery ∧ status = confirmedByDelivery) →
      ∃ pre post, s.orders = pre ++ o :: post ∧ (∀ x ∈ pre, x._id ≠ orderId) ∧
        updateStatus s orderId status =
          (⟨200, .order { o with status := status }⟩,
            { s with orders := pre ++ { o with status := status } :: post }) ∧
        findOrder (updateStatus s orderId status).2 orderId
          = some { o with status := status }) ∧
    (findOrder s orderId = none →
      updateStatus s orderId status = (reply 404 "Order not found", s)) := by
  constructor
  · intro o hfind hguard
    obtain ⟨pre, post, h1, h2, h3⟩ := updateFirst_of_find? (fun x : Order => x._id == orderId)
      (fun x => { x with status := status }) s.orders o hfind
    have hid : o._id = orderId := by
      have := List.find?_some hfind
      simpa using this
    have hpre : ∀ x ∈ pre, x._id ≠ orderId := by
      intro x hx
      simpa using h2 x hx
    have hres : updateStatus s orderId status =
        (⟨200, .order { o with status := status }⟩,
          { s with orders := pre ++ { o with status := status } :: post }) := by
      unfold updateStatus
      have hg : (status == confirmedByDelivery && o.status == confirmedByDelivery) = false := by
        by_cases hs : status = confirmedByDelivery
        · have : o.status ≠ confirmedByDelivery := fun h => hguard ⟨h, hs⟩
          simp [hs, this]
        · simp [hs]
      simp only [hfind, hg, h3]
      simp
    refine ⟨pre, post, h1, hpre, hres, ?_⟩
    rw [hres]
    have hnone : pre.find? (fun x : Order => x._id == orderId) = none :=
      find?_eq_none_of_forall _ _ h2
    simp [findOrder, find?_append_none _ _ _ hnone, List.find?_cons, hid]
  · intro hnone
    simp [updateStatus, hnone]

theorem updateStatus_sets_status_only_witness :
    (updateStatus sampleStoreConfirmed 500 "Delivered").1
        = ⟨200, .order (sampleOrder "Delivered")⟩ ∧
      updateStatus sampleStoreConfirmed 9 "Delivered"
        = (reply 404 "Order not found", sampleStoreConfirmed) := by
  have h := updateStatus_sets_status_only sampleStoreConfirmed 500 "Delivered"
  have h9 := updateStatus_sets_status_only sampleStoreConfirmed 9 "Delivered"
  obtain ⟨pre, post, _, _, hres, _⟩ := h.1 (sampleOrder confirmedByDelivery) (by decide) (by decide)
  exact ⟨by rw [hres]; rfl, h9.2 (by decide)⟩

/-! ## Checkout -/

/-- C7. A `placeOrder` request that lacks one of the ten fields is answered 400
'Incomplete order data' and the store, its orders and restaurants included, is
left as it was. -/
theorem placeOrder_missing_field (s : Store) (now : Nat) (req : OrderRequest)
    (h : req.userId = none ∨ req.restaurantId = none ∨ req.items = none ∨ req.total = none ∨
      req.customerName = none ∨ req.customerAddress = none ∨ req.customerPhone = none ∨
      req.restaurantName = none ∨ req.restaurantAddress = none ∨ req.restaurantPhone = none) :
    placeOrder s now req = (reply 400 "Incomplete order data", s) := by
  have hinc : incomplete req = true := by
    unfold incomplete
    rcases h with h | h | h | h | h | h | h | h | h | h <;>
      simp [h, falsyRef, falsyNum, falsyStr]
  simp [placeOrder, hinc]

theorem placeOrder_missing_field_witness :
    placeOrder sampleStore 0 { sampleRequest 20 with customerPhone := none }
      = (reply 400 "Incomplete order data", sampleStore) :=
  placeOrder_missing_field sampleStore 0 { sampleRequest 20 with customerPhone := none }
    (by decide)

/-- C8, as stated, fails: the request with all ten fields present, total 0 and
the existing restaurant 7 is answered 400 and adds no order; so is the request
of total 20 whose customer name is the empty string. -/
theorem placeOrder_present_fields_zero_total_rejected :
    (sampleRequest 0).userId.isSome ∧ (sampleRequest 0).restaurantId.isSome ∧
      (sampleRequest 0).items.isSome ∧ (sampleRequest 0).total.isSome ∧
      (sampleRequest 0).customerName.isSome ∧ (sampleRequest 0).customerAddress.isSome ∧
      (sampleRequest 0).customerPhone.isSome ∧ (sampleRequest 0).restaurantName.isSome ∧
      (sampleRequest 0).restaurantAddress.isSome ∧ (sampleRequest 0).restaurantPhone.isSome ∧
      (findRestaurant sampleStore 7).isSome ∧
      placeOrder sampleStore 0 (sampleRequest 0)
        = (reply 400 "Incomplete order data", sampleStore) ∧
      placeOrder sampleStore 0 { sampleRequest 20 with customerName := some "" }
        = (reply 400 "Incomplete order data", sampleStore) := by
  decide

/-- C8, amended. For a request with all ten fields present, a total other than 0,
non-empty contact strings and the identifier of an existing restaurant,
`placeOrder` answers 201 with the new order, which carries the supplied user,
restaurant, items, total and contact fields and the status 'Pending'; it appends
that order to the orders and its identifier to the end of the order list of the
restaurant, and keeps every other restaurant and the users, foods and carts. -/
theorem placeOrder_success (s : Store) (now : Nat) (userId restaurantId : Id)
    (items : List OrderItem) (total : Int)
    (customerName customerAddress customerPhone : String)
    (restaurantName restaurantAddress restaurantPhone : String) (restaurant : Restaurant)
    (htotal : total ≠ 0) (hcn : customerName ≠ "") (hca : customerAddress ≠ "")
    (hcp : customerPhone ≠ "") (hrn : restaurantName ≠ "") (hra : restaurantAddress ≠ "")
    (hrp : restaurantPhone ≠ "") (hrest : findRestaurant s restaurantId = some restaurant) :
    let req : OrderRequest :=
      { userId := some userId, restaurantId := some restaurantId, items := some items,
        total := some total, customerName := some customerName,
        customerAddress := some customerAddress, customerPhone := some customerPhone,
        restaurantName := some restaurantName, restaurantAddress := some restaurantAddress,
        restaurantPhone := some restaurantPhone }
    let newOrder : Order :=
      { _id := s.nextId, userId := userId, restaurantId := restaurantId, items := items,
        total := total, status := "Pending", createdAt := now,
        customerName := some customerName, customerAddress := some customerAddress,
        customerPhone := some customerPhone, restaurantName := some restaurantName,
        restaurantAddress := some restaurantAddress, restaurantPhone := some restaurantPhone }
    ∃ pre post, s.restaurants = pre ++ restaurant :: post ∧
      (∀ x ∈ pre, x._id ≠ restaurantId) ∧
      placeOrder s now req =
        (⟨201, .order newOrder⟩,
          { s with nextId := s.nextId + 1,
                   orders := s.orders ++ [newOrder],
                   restaurants := pre ++
                     { restaurant with orders := restaurant.orders ++ [s.nextId] } :: post }) := by
  intro req newOrder
  have hid : restaurant._id = restaurantId := by
    have := List.find?_some hrest
    simpa using this
  obtain ⟨pre, post, h1, h2, h3⟩ := updateFirst_of_find?
    (fun x : Restaurant => x._id == restaurantId)
    (fun x => { x with orders := x.orders ++ [s.nextId] }) s.restaurants restaurant hrest
  refine ⟨pre, post, h1, fun x hx => by simpa using h2 x hx, ?_⟩
  have hinc : incomplete req = false := by
    simp [incomplete, req, falsyRef, falsyNum, falsyStr, htotal, hcn, hca, hcp, hrn, hra, hrp]
  simp only [placeOrder, hinc, req, hrest, hid, h3]
  simp [newOrder]

theorem placeOrder_success_witness :
    ∃ pre post, sampleStoreWithCart.restaurants = pre ++ ⟨7, "Roma", 4, 1, []⟩ :: post ∧
      (∀ x ∈ pre, x._id ≠ 7) ∧
      placeOrder sampleStoreWithCart 9 (sampleRequest 20) =
        (⟨201, .order { sampleOrder "Pending" with _id := 102, createdAt := 9 }⟩,
          { sampleStoreWithCart with
              nextId := 103,
              orders := [{ sampleOrder "Pending" with _id := 102, createdAt := 9 }],
              restaurants := pre ++ ⟨7, "Roma", 4, 1, [102]⟩ :: post }) :=
  placeOrder_success sampleStoreWithCart 9 1 7
    [⟨3, some "Pizza", some 10, some 2⟩] 20 "Ann" "1 Main St" "555" "Roma" "2 High St" "777"
    ⟨7, "Roma", 4, 1, []⟩ (by decide) (by decide) (by decide) (by decide) (by decide)
    (by decide) (by decide) (by decide)

/-! ## Signup -/

/-- A signup leaves the users as they were or appends one whose email no stored
account has. -/
theorem createAccount_users (s : Store) (req : SignupRequest) :
    (createAccount s req).2.users = s.users ∨
      ∃ u : User, u.email = req.email ∧ (∀ v ∈ s.users, v.email ≠ req.email) ∧
        (createAccount s req).2.users = s.users ++ [u] := by
  unfold createAccount
  cases hfind : s.users.find? (fun u => u.email == req.email) with
  | some u => exact Or.inl rfl
  | none =>
    cases hfile : req.file with
    | none => exact Or.inl rfl
    | some file =>
      refine Or.inr ⟨_, rfl, ?_, rfl⟩
      intro v hv
      have := List.find?_eq_none.1 hfind v hv
      simpa using this

theorem createAccount_keeps_distinct (s : Store) (req : SignupRequest)
    (h : EmailsDistinct s) : EmailsDistinct (createAccount s req).2 := by
  unfold EmailsDistinct at *
  rcases createAccount_users s req with h1 | ⟨u, hu, hnew, h1⟩
  · rw [h1]; exact h
  · rw [h1, List.map_append, List.map_singleton]
    refine List.Nodup.append h (List.nodup_singleton _) ?_
    intro e he1 he2
    rw [List.mem_singleton] at he2
    obtain ⟨v, hv, hve⟩ := List.mem_map.1 he1
    exact hnew v hv (by rw [hve, he2, hu])

/-- C9. A signup whose email is the email of a stored account is answered 400
'Email already in use' and leaves the store, its users included, as it was; and
from a store of pairwise distinct emails every sequence of signups leaves a
store of pairwise distinct emails. -/
theorem createAccount_duplicate_email_rejected :
    (∀ (s : Store) (req : SignupRequest), (∃ u ∈ s.users, u.email = req.email) →
      createAccount s req = (reply 400 "Email already in use", s)) ∧
    (∀ (s : Store) (reqs : List SignupRequest), EmailsDistinct s →
      EmailsDistinct (runSignups s reqs)) := by
  constructor
  · intro s req hdup
    unfold createAccount
    cases hfind : s.users.find? (fun u => u.email == req.email) with
    | some u => rfl
    | none =>
      obtain ⟨u, hu, hue⟩ := hdup
      have := List.find?_eq_none.1 hfind u hu
      simp [hue] at this
  · intro s reqs
    induction reqs generalizing s with
    | nil => exact fun h => h
    | cons r rs ih => exact fun h => ih _ (createAccount_keeps_distinct s r h)

theorem createAccount_duplicate_email_rejected_witness :
    createAccount (createAccount sampleStore (sampleSignup "ann@x.org")).2
        (sampleSignup "ann@x.org")
        = (reply 400 "Email already in use",
            (createAccount sampleStore (sampleSignup "ann@x.org")).2) ∧
      EmailsDistinct (runSignups sampleStore
        [sampleSignup "ann@x.org", sampleSignup "ann@x.org", sampleSignup "bob@x.org"]) :=
  ⟨createAccount_duplicate_email_rejected.1 _ (sampleSignup "ann@x.org") (by decide),
    createAccount_duplicate_email_rejected.2 sampleStore _ (by decide)⟩

/-! ## One cart per user -/

/-- The two invariants pass to a store whose cart users and cart identifiers are
sublists of the former ones and whose identifier supply did not go back. -/
theorem invariants_of_sublists (s t : Store)
    (hu : (t.carts.map (fun c => c.userId)).Sublist (s.carts.map (fun c => c.userId)))
    (hi : (t.carts.map (fun c => c._id)).Sublist (s.carts.map (fun c => c._id)))
    (hn : s.nextId ≤ t.nextId) (h : OneCartPerUser s ∧ CartIdsFresh s) :
    OneCartPerUser t ∧ CartIdsFresh t := by
  obtain ⟨h1, h2, h3⟩ := h
  refine ⟨h1.sublist hu, h2.sublist hi, ?_⟩
  intro i hi2
  exact Nat.lt_of_lt_of_le (h3 i (hi.subset hi2)) hn

theorem invariants_of_carts_sublist (s t : Store) (hc : t.carts.Sublist s.carts)
    (hn : s.nextId ≤ t.nextId) (h : OneCartPerUser s ∧ CartIdsFresh s) :
    OneCartPerUser t ∧ CartIdsFresh t :=
  invariants_of_sublists s t (hc.map _) (hc.map _) hn h

theorem setTotal_keeps (d : CartDoc) (v : JsNum) :
    (d.setTotal v).isNew = d.isNew ∧ (d.setTotal v).cart._id = d.cart._id ∧
      (d.setTotal v).cart.userId = d.cart.userId := by
  unfold CartDoc.setTotal
  split <;> simp

/-- Saving keeps the two invariants when a new document has a user without a
stored cart and an identifier below the supply that no stored cart has. -/
theorem saveCart_invariants (s s1 : Store) (d : CartDoc)
    (h : OneCartPerUser s ∧ CartIdsFresh s)
    (hd : d.isNew = true → d.cart.userId ∉ s.carts.map (fun c => c.userId) ∧
      d.cart._id ∉ s.carts.map (fun c => c._id) ∧ d.cart._id < s.nextId)
    (hsave : saveCart s d = some s1) : OneCartPerUser s1 ∧ CartIdsFresh s1 := by
  unfold saveCart at hsave
  by_cases hinv : d.invalid = true
  · simp [hinv] at hsave
  · by_cases hnew : d.isNew = true
    · obtain ⟨hu, hi, hlt⟩ := hd hnew
      simp only [hinv, hnew, if_true, Option.some.injEq] at hsave
      simp at hsave
      subst hsave
      obtain ⟨h1, h2, h3⟩ := h
      refine ⟨?_, ?_, ?_⟩
      · show ((s.carts ++ [d.cart]).map (fun c => c.userId)).Nodup
        rw [List.map_append, List.map_singleton]
        refine List.Nodup.append h1 (List.nodup_singleton _) ?_
        intro e he1 he2
        rw [List.mem_singleton] at he2
        exact hu (he2 ▸ he1)
      · show ((s.carts ++ [d.cart]).map (fun c => c._id)).Nodup
        rw [List.map_append, List.map_singleton]
        refine List.Nodup.append h2 (List.nodup_singleton _) ?_
        intro e he1 he2
        rw [List.mem_singleton] at he2
        exact hi (he2 ▸ he1)
      · intro i hi2
        have hi3 : i ∈ (s.carts ++ [d.cart]).map (fun c => c._id) := hi2
        rw [List.map_append, List.map_singleton, List.mem_append, List.mem_singleton] at hi3
        rcases hi3 with hi3 | hi3
        · exact h3 i hi3
        · rw [hi3]; exact hlt
    · simp [hinv, hnew] at hsave
      subst hsave
      refine invariants_of_sublists s _ ?_ ?_ (Nat.le_refl _) h
      · show ((updateFirst _ _ s.carts).map (fun c => c.userId)).Sublist _
        rw [map_updateFirst (fun c : Cart => c._id == d.cart._id)
          (fun c => { c with items := d.cart.items, total := d.cart.total })
          (fun c => c.userId) (fun _ => rfl)]
      · show ((updateFirst _ _ s.carts).map (fun c => c._id)).Sublist _
        rw [map_updateFirst (fun c : Cart => c._id == d.cart._id)
          (fun c => { c with items := d.cart.items, total := d.cart.total })
          (fun c => c._id) (fun _ => rfl)]

theorem putLine_keeps (s : Store) (d : CartDoc) (foodId : Id) (quantity : Int) :
    (putLine s d foodId quantity).1.carts = s.carts ∧
      s.nextId ≤ (putLine s d foodId quantity).1.nextId ∧
      (putLine s d foodId quantity).2.isNew = d.isNew ∧
      (putLine s d foodId quantity).2.cart._id = d.cart._id ∧
      (putLine s d foodId quantity).2.cart.userId = d.cart.userId := by
  unfold putLine
  split <;> simp [CartDoc.setItems]

theorem storeLine_invariants (s : Store) (d : CartDoc) (foodId : Id) (quantity : Int)
    (h : OneCartPerUser s ∧ CartIdsFresh s)
    (hd : d.isNew = true → d.cart.userId ∉ s.carts.map (fun c => c.userId) ∧
      d.cart._id ∉ s.carts.map (fun c => c._id) ∧ d.cart._id < s.nextId) :
    OneCartPerUser (storeLine s d foodId quantity).2 ∧
      CartIdsFresh (storeLine s d foodId quantity).2 := by
  unfold storeLine
  cases hfood : findFood s foodId with
  | none => exact h
  | some food =>
    obtain ⟨hc, hn, hnew, hid, hus⟩ := putLine_keeps s d foodId quantity
    have hw : OneCartPerUser (putLine s d foodId quantity).1 ∧
        CartIdsFresh (putLine s d foodId quantity).1 :=
      invariants_of_carts_sublist s _ (by rw [hc]) hn h
    simp only
    cases hsave : saveCart (putLine s d foodId quantity).1
        ((putLine s d foodId quantity).2.setTotal
          (jsAdd (some (putLine s d foodId quantity).2.cart.total)
            (jsMul food.price (some quantity)))) with
    | none => exact hw
    | some s1 =>
      refine saveCart_invariants _ s1 _ hw ?_ hsave
      obtain ⟨k1, k2, k3⟩ := setTotal_keeps (putLine s d foodId quantity).2
        (jsAdd (some (putLine s d foodId quantity).2.cart.total)
          (jsMul food.price (some quantity)))
      intro hn2
      rw [k1, hnew] at hn2
      obtain ⟨a, b, c⟩ := hd hn2
      rw [k2, k3, hid, hus, hc]
      exact ⟨a, b, Nat.lt_of_lt_of_le c hn⟩

theorem addItem_invariants (s : Store) (userId restaurantId foodId : Id) (quantity : Int)
    (h : OneCartPerUser s ∧ CartIdsFresh s) :
    OneCartPerUser (addItem s userId restaurantId foodId quantity).2 ∧
      CartIdsFresh (addItem s userId restaurantId foodId quantity).2 := by
  unfold addItem
  have fresh : ∀ t : Store, (OneCartPerUser t ∧ CartIdsFresh t) →
      userId ∉ t.carts.map (fun c => c.userId) →
      OneCartPerUser (storeLine (cartOrNew t none userId restaurantId).1
          (cartOrNew t none userId restaurantId).2 foodId quantity).2 ∧
        CartIdsFresh (storeLine (cartOrNew t none userId restaurantId).1
          (cartOrNew t none userId restaurantId).2 foodId quantity).2 := by
    intro t ht hu
    refine storeLine_invariants _ _ _ _
      (invariants_of_carts_sublist t _ (List.Sublist.refl _) (Nat.le_succ _) ht) ?_
    intro _
    refine ⟨hu, ?_, Nat.lt_succ_self _⟩
    intro hmem
    exact Nat.lt_irrefl _ (ht.2.2 _ hmem)
  cases hcart : findCart s userId with
  | none =>
    have hl : loadCartFor s userId restaurantId = (s, none) := by simp [loadCartFor, hcart]
    rw [hl]
    refine fresh s h ?_
    intro hmem
    obtain ⟨c, hc, hcu⟩ := List.mem_map.1 hmem
    have := List.find?_eq_none.1 hcart c hc
    simp [hcu] at this
  | some c =>
    by_cases hr : c.restaurantId = restaurantId
    · have hl : loadCartFor s userId restaurantId = (s, some c) := by
        simp [loadCartFor, hcart, hr]
      rw [hl]
      exact storeLine_invariants _ _ _ _ h (by simp [cartOrNew])
    · have hl : loadCartFor s userId restaurantId = (deleteCart s c._id, none) := by
        simp [loadCartFor, hcart, hr]
      rw [hl]
      obtain ⟨hmem, huser⟩ := mem_of_findCart hcart
      refine fresh _ (invariants_of_carts_sublist s _ (List.eraseP_sublist _) (Nat.le_refl _) h) ?_
      intro hm
      obtain ⟨x, hx, hxu⟩ := List.mem_map.1 hm
      exact eraseP_id_no_user s.carts c hmem h.2.1 h.1 x hx (by rw [huser]; exact hxu)

theorem setItemQuantityByLineId_invariants (s : Store) (userId itemId : Id) (quantity : Int)
    (h : OneCartPerUser s ∧ CartIdsFresh s) :
    OneCartPerUser (setItemQuantityByLineId s userId itemId quantity).2 ∧
      CartIdsFresh (setItemQuantityByLineId s userId itemId quantity).2 := by
  unfold setItemQuantityByLineId
  split
  · exact h
  · split
    · exact h
    · split
      · exact h
      · split
        · exact h
        · simp only
          split
          · exact h
          · next s1 hsave => exact saveCart_invariants s s1 _ h (by simp [CartDoc.setItems]) hsave

theorem removeLineById_invariants (s : Store) (userId itemId : Id)
    (h : OneCartPerUser s ∧ CartIdsFresh s) :
    OneCartPerUser (removeLineById s userId itemId).2 ∧
      CartIdsFresh (removeLineById s userId itemId).2 := by
  unfold removeLineById
  split
  · exact h
  · split
    · exact h
    · simp only
      split
      · exact h
      · next s1 hsave => exact saveCart_invariants s s1 _ h (by simp [CartDoc.setItems]) hsave

theorem clearCart_invariants (s : Store) (userId : Id)
    (h : OneCartPerUser s ∧ CartIdsFresh s) :
    OneCartPerUser (clearCart s userId).2 ∧ CartIdsFresh (clearCart s userId).2 := by
  unfold clearCart
  split
  · exact h
  · exact invariants_of_carts_sublist s _ (List.eraseP_sublist _) (Nat.le_refl _) h

theorem createUserOrder_invariants (s : Store) (now : Nat) (userId : Id)
    (req : UserOrderRequest) (h : OneCartPerUser s ∧ CartIdsFresh s) :
    OneCartPerUser (createUserOrder s now userId req).2 ∧
      CartIdsFresh (createUserOrder s now userId req).2 := by
  unfold createUserOrder
  split
  · exact invariants_of_carts_sublist s _ (List.eraseP_sublist _) (Nat.le_succ _) h
  · exact invariants_of_carts_sublist s _ (List.Sublist.refl _) (Nat.le_succ _) h

theorem placeOrder_invariants (s : Store) (now : Nat) (req : OrderRequest)
    (h : OneCartPerUser s ∧ CartIdsFresh s) :
    OneCartPerUser (placeOrder s now req).2 ∧ CartIdsFresh (placeOrder s now req).2 := by
  unfold placeOrder
  split
  · exact h
  · split
    · split
      · exact h
      · exact invariants_of_carts_sublist s _ (List.Sublist.refl _) (Nat.le_succ _) h
    · exact h

theorem handle_invariants (s : Store) (r : Request)
    (h : OneCartPerUser s ∧ CartIdsFresh s) :
    OneCartPerUser (handle s r).2 ∧ CartIdsFresh (handle s r).2 := by
  cases r with
  | addItem u rid f q => exact addItem_invariants s u rid f q h
  | setItemQuantity u f q =>
    show OneCartPerUser (setItemQuantity s u f q).2 ∧ CartIdsFresh (setItemQuantity s u f q).2
    rw [setItemQuantity_store]; exact h
  | setItemQuantityByLineId u i q => exact setItemQuantityByLineId_invariants s u i q h
  | removeLineById u i => exact removeLineById_invariants s u i h
  | removeLineByFoodId u f =>
    show OneCartPerUser (removeLineByFoodId s u f).2 ∧ CartIdsFresh (removeLineByFoodId s u f).2
    rw [removeLineByFoodId_store]; exact h
  | clearCart u => exact clearCart_invariants s u h
  | createUserOrder now u req => exact createUserOrder_invariants s now u req h
  | placeOrder now req => exact placeOrder_invariants s now req h

/-- Every sequence of cart and order requests keeps one cart per user. -/
theorem run_keeps_one_cart_per_user (s : Store) (rs : List Request)
    (h : OneCartPerUser s ∧ CartIdsFresh s) :
    OneCartPerUser (run s rs) ∧ CartIdsFresh (run s rs) := by
  induction rs generalizing s with
  | nil => exact h
  | cons r rs ih => exact ih _ (handle_invariants s r h)

/-- C10. From a store in which no two carts have one user (and, as the database
guarantees, no two carts have one `_id` and the identifier supply is ahead of
them), each of `addItem`, `setItemQuantity`, `setItemQuantityByLineId`,
`removeLineById`, `removeLineByFoodId`, `clearCart` and the two order-creation
routes leaves a store in which no two carts have one user, and the guarantee on
`_id` holds again. -/
theorem handle_keeps_one_cart_per_user (s : Store) (r : Request)
    (hone : OneCartPerUser s) (hids : CartIdsFresh s) :
    OneCartPerUser (handle s r).2 ∧ CartIdsFresh (handle s r).2 :=
  handle_invariants s r ⟨hone, hids⟩

theorem handle_keeps_one_cart_per_user_witness :
    OneCartPerUser sampleStoreWithCart ∧ CartIdsFresh sampleStoreWithCart ∧
      OneCartPerUser (handle sampleStoreWithCart (.addItem 1 8 3 4)).2 :=
  ⟨by decide, by decide,
    (handle_keeps_one_cart_per_user sampleStoreWithCart (.addItem 1 8 3 4)
      (by decide) (by decide)).1⟩

/-! ## Removal and update of a line -/

/-- C11. On the cart with the line of two pizzas of price 10 and total 20,
`removeLineByFoodId` of that food answers 500 and leaves the cart as it was, the
line still there and the total 20. -/
theorem removeLineByFoodId_fails_on_existing_line :
    findCart sampleStoreWithCart 1 = some ⟨100, 1, 7, [⟨101, 3, 2⟩], 20⟩ ∧
      findFood sampleStoreWithCart 3 = some ⟨3, "Pizza", some 10⟩ ∧
      removeLineByFoodId sampleStoreWithCart 1 3 = (internalError, sampleStoreWithCart) := by
  decide

theorem findIndex_append_cons {α : Type} (p : α → Bool) (pre post : List α) (a : α)
    (hpre : ∀ x ∈ pre, p x = false) (ha : p a = true) :
    findIndex p (pre ++ a :: post) = some pre.length := by
  induction pre with
  | nil => simp [findIndex, ha]
  | cons y ys ih =>
    have hy : p y = false := hpre y (List.mem_cons_self y ys)
    have hys : ∀ x ∈ ys, p x = false := fun x hx => hpre x (List.mem_cons_of_mem y hx)
    simp [findIndex, hy, ih hys]

theorem getElem?_append_cons {α : Type} (pre post : List α) (a : α) :
    (pre ++ a :: post)[pre.length]? = some a := by
  induction pre with
  | nil => simp
  | cons y ys ih => simpa using ih

theorem set_append_cons {α : Type} (pre post : List α) (a b : α) :
    (pre ++ a :: post).set pre.length b = pre ++ b :: post := by
  induction pre with
  | nil => rfl
  | cons y ys ih => simp

theorem eraseIdx_append_cons {α : Type} (pre post : List α) (a : α) :
    (pre ++ a :: post).eraseIdx pre.length = pre ++ post := by
  induction pre with
  | nil => rfl
  | cons y ys ih => simpa using ih

/-- The cart that `findOne` returns for a user splits the collection: no cart
before it has that user, and with pairwise distinct `_id` none has its `_id`. -/
theorem carts_split_of_findCart (s : Store) (userId : Id) (cart : Cart)
    (hnodup : (s.carts.map (fun c => c._id)).Nodup) (hcart : findCart s userId = some cart) :
    ∃ cpre cpost, s.carts = cpre ++ cart :: cpost ∧
      (∀ c ∈ cpre, (c.userId == userId) = false) ∧
      (∀ c ∈ cpre, (c._id == cart._id) = false) := by
  obtain ⟨cpre, cpost, h1, h2, _⟩ := updateFirst_of_find? (fun c : Cart => c.userId == userId)
    (fun c => c) s.carts cart hcart
  refine ⟨cpre, cpost, h1, h2, ?_⟩
  intro c hc
  rw [h1, List.map_append, List.map_cons] at hnodup
  have hdis := (List.nodup_append.1 hnodup).2.2
  have hne : c._id ≠ cart._id := by
    intro he
    exact hdis (List.mem_map.2 ⟨c, hc, rfl⟩) (by rw [he]; exact List.mem_cons_self _ _)
  simpa using hne

/-- C12. For the cart of a user and the first line `item` with a given line
`_id`: `removeLineById` answers 204 and stores the cart without that line, and
`setItemQuantityByLineId`, when the food of the line exists, answers 200 and
stores the cart with that line's quantity replaced. In both cases the lines
before and after it, the total, the restaurant, the user and the `_id` of the
cart, every other cart and every other collection are as before. -/
theorem lineId_mutators_keep_total (s : Store) (userId lineId : Id) (quantity : Int)
    (cart : Cart) (item : CartItem) (hids : CartIdsFresh s)
    (hcart : findCart s userId = some cart)
    (hline : cart.items.find? (fun i => i._id == lineId) = some item) :
    ∃ pre post cpre cpost, cart.items = pre ++ item :: post ∧
      (∀ x ∈ pre, x._id ≠ lineId) ∧ s.carts = cpre ++ cart :: cpost ∧
      (∀ c ∈ cpre, c.userId ≠ userId) ∧
      ((findFood s item.foodId).isSome →
        setItemQuantityByLineId s userId lineId quantity =
          (⟨200, .cart { cart with items := pre ++ { item with quantity := quantity } :: post }⟩,
            { s with carts := cpre ++
                { cart with items := pre ++ { item with quantity := quantity } :: post }
                  :: cpost }) ∧
        findCart (setItemQuantityByLineId s userId lineId quantity).2 userId =
          some { cart with items := pre ++ { item with quantity := quantity } :: post }) ∧
      removeLineById s userId lineId =
        (reply 204 "Item removed from cart",
          { s with carts := cpre ++ { cart with items := pre ++ post } :: cpost }) ∧
      findCart (removeLineById s userId lineId).2 userId =
        some { cart with items := pre ++ post } := by
  obtain ⟨pre, post, hitems, hpre, _⟩ := updateFirst_of_find? (fun i : CartItem => i._id == lineId)
    (fun i => i) cart.items item hline
  obtain ⟨cpre, cpost, hcarts, hcu, hci⟩ := carts_split_of_findCart s userId cart hids.1 hcart
  have hitem : (item._id == lineId) = true := by
    have := List.find?_some hline
    simpa using this
  have huser : (cart.userId == userId) = true := by
    have := List.find?_some hcart
    simpa using this
  have hidx : findIndex (fun i : CartItem => i._id == lineId) cart.items = some pre.length := by
    rw [hitems]; exact findIndex_append_cons _ pre post item hpre hitem
  have hget : cart.items[pre.length]? = some item := by
    rw [hitems]; exact getElem?_append_cons pre post item
  have hset : cart.items.set pre.length { item with quantity := quantity }
      = pre ++ { item with quantity := quantity } :: post := by
    rw [hitems]; exact set_append_cons pre post item _
  have herase : cart.items.eraseIdx pre.length = pre ++ post := by
    rw [hitems]; exact eraseIdx_append_cons pre post item
  have hupd : ∀ f : Cart → Cart,
      updateFirst (fun c : Cart => c._id == cart._id) f s.carts = cpre ++ f cart :: cpost := by
    intro f
    rw [hcarts, updateFirst_append_right _ _ _ _ hci]
    simp [updateFirst]
  have hfindnone : cpre.find? (fun c : Cart => c.userId == userId) = none :=
    find?_eq_none_of_forall _ _ hcu
  have hset2 : setItemQuantityByLineId s userId lineId quantity =
      if (findFood s item.foodId).isSome then
        (⟨200, .cart { cart with items := pre ++ { item with quantity := quantity } :: post }⟩,
          { s with carts := cpre ++
              { cart with items := pre ++ { item with quantity := quantity } :: post }
                :: cpost })
      else (reply 404 "Food item not found", s) := by
    unfold setItemQuantityByLineId
    simp only [hcart, hidx, hget]
    cases hfood : findFood s item.foodId with
    | none => simp
    | some food => simp [saveCart, CartDoc.setItems, hset, hupd]
  have hrem : removeLineById s userId lineId =
      (reply 204 "Item removed from cart",
        { s with carts := cpre ++ { cart with items := pre ++ post } :: cpost }) := by
    unfold removeLineById
    simp only [hcart, hidx]
    simp [saveCart, CartDoc.setItems, herase, hupd]
  refine ⟨pre, post, cpre, cpost, hitems, fun x hx => by simpa using hpre x hx, hcarts,
    fun c hc => by simpa using hcu c hc, ?_, hrem, ?_⟩
  · intro hfood
    rw [hset2, if_pos hfood]
    refine ⟨rfl, ?_⟩
    simp only [findCart]
    rw [find?_append_none _ _ _ hfindnone]
    simp [List.find?_cons, huser]
  · rw [hrem]
    simp only [findCart]
    rw [find?_append_none _ _ _ hfindnone]
    simp [List.find?_cons, huser]

theorem lineId_mutators_keep_total_witness :
    (∃ c, findCart (setItemQuantityByLineId sampleStoreWithCart 1 101 5).2 1 = some c ∧
        c.total = 20 ∧ c.restaurantId = 7) ∧
      (∃ c, findCart (removeLineById sampleStoreWithCart 1 101).2 1 = some c ∧
        c.total = 20 ∧ c.restaurantId = 7) := by
  obtain ⟨pre, post, cpre, cpost, _, _, _, _, hset, _, hrem⟩ :=
    lineId_mutators_keep_total sampleStoreWithCart 1 101 5 ⟨100, 1, 7, [⟨101, 3, 2⟩], 20⟩
      ⟨101, 3, 2⟩ (by decide) (by decide) (by decide)
  exact ⟨⟨_, (hset (by decide)).2, rfl, rfl⟩, ⟨_, hrem, rfl, rfl⟩⟩

/-! ## The user-scoped order route -/

theorem find?_eraseP_user (l : List Cart) (userId : Id)
    (h : (l.map (fun c => c.userId)).Nodup) :
    (l.eraseP (fun c => c.userId == userId)).find? (fun c => c.userId == userId) = none := by
  induction l with
  | nil => rfl
  | cons y ys ih =>
    rw [List.map_cons, List.nodup_cons] at h
    by_cases hy : y.userId = userId
    · have he : (y :: ys).eraseP (fun c => c.userId == userId) = ys := by
        simp [List.eraseP_cons, hy]
      rw [he]
      refine find?_eq_none_of_forall _ _ ?_
      intro x hx
      have hne : x.userId ≠ userId := by
        intro hxu
        exact h.1 (List.mem_map.2 ⟨x, hx, by rw [hxu, hy]⟩)
      simpa using hne
    · have he : (y :: ys).eraseP (fun c => c.userId == userId)
          = y :: ys.eraseP (fun c => c.userId == userId) := by
        simp [List.eraseP_cons, hy]
      rw [he]
      simp [List.find?_cons, hy, ih h.2]

/-- C13. A request to `POST /users/:userId/orders` that carries a restaurant and
a total is answered 201 with a new order of that user, restaurant, total and
the supplied items (none when the body has no items) and status 'Pending'; the
order is appended to the orders, the cart of the user is deleted so that the
user has no cart afterwards, and the restaurants, their order lists included,
the users and the foods are as before. -/
theorem createUserOrder_clears_cart (s : Store) (now : Nat) (userId restaurantId : Id)
    (total : Int) (req : UserOrderRequest) (hone : OneCartPerUser s)
    (hr : req.restaurantId = some restaurantId) (ht : req.total = some total) :
    let order : Order :=
      { _id := s.nextId, userId := userId, restaurantId := restaurantId,
        items := req.items.getD [], total := total, status := "Pending", createdAt := now,
        customerName := none, customerAddress := none, customerPhone := none,
        restaurantName := none, restaurantAddress := none, restaurantPhone := none }
    createUserOrder s now userId req =
        (⟨201, .order order⟩,
          { s with nextId := s.nextId + 1,
                   orders := s.orders ++ [order],
                   carts := s.carts.eraseP (fun c => c.userId == userId) }) ∧
      findCart (createUserOrder s now userId req).2 userId = none ∧
      (createUserOrder s now userId req).2.restaurants = s.restaurants := by
  intro order
  have hres : createUserOrder s now userId req =
      (⟨201, .order order⟩,
        { s with nextId := s.nextId + 1,
                 orders := s.orders ++ [order],
                 carts := s.carts.eraseP (fun c => c.userId == userId) }) := by
    simp [createUserOrder, hr, ht, order]
  refine ⟨hres, ?_, ?_⟩
  · rw [hres]
    exact find?_eraseP_user s.carts userId hone
  · rw [hres]

theorem createUserOrder_clears_cart_witness :
    OneCartPerUser sampleStoreWithCart ∧
      (findCart sampleStoreWithCart 1).isSome ∧
      findCart (createUserOrder sampleStoreWithCart 9 1
        ⟨some 7, some [⟨3, none, none, some 2⟩], some 20⟩).2 1 = none :=
  ⟨by decide, by decide,
    (createUserOrder_clears_cart sampleStoreWithCart 9 1 7 20
      ⟨some 7, some [⟨3, none, none, some 2⟩], some 20⟩ (by decide) rfl rfl).2.1⟩

/-! ## Top rated restaurants -/

/-- C14. `topRated` answers 404 exactly when the store has no restaurant;
otherwise it answers 200 with `min 10 n` of the `n` restaurants, listed with
ratings in non-increasing order, and every restaurant left out is rated at most
as high as every restaurant listed. -/
theorem topRated_sorted_top_ten (s : Store) :
    (topRated s = reply 404 "No top restaurants found" ↔ s.restaurants = []) ∧
    (s.restaurants ≠ [] →
      ∃ top rest, topRated s = ⟨200, .restaurants top⟩ ∧
        top.length = min 10 s.restaurants.length ∧
        top.Pairwise (fun a b => b.Rating ≤ a.Rating) ∧
        (top ++ rest).Perm s.restaurants ∧
        ∀ a ∈ top, ∀ b ∈ rest, b.Rating ≤ a.Rating) := by
  have hlen : (topRestaurants s).length = min 10 s.restaurants.length := by
    simp [topRestaurants]
  have hsorted : (s.restaurants.insertionSort ratedAtLeast).Pairwise ratedAtLeast :=
    List.sorted_insertionSort ratedAtLeast s.restaurants
  have hsplit : topRestaurants s ++ (s.restaurants.insertionSort ratedAtLeast).drop 10
      = s.restaurants.insertionSort ratedAtLeast := List.take_append_drop 10 _
  have hzero : (topRestaurants s).length = 0 ↔ s.restaurants = [] := by
    rw [hlen]
    constructor
    · intro h
      have h0 : s.restaurants.length = 0 := by omega
      exact List.length_eq_zero.1 h0
    · intro h
      rw [h]; rfl
  constructor
  · unfold topRated
    by_cases h0 : (topRestaurants s).length = 0
    · simp [h0, hzero.1 h0]
    · have hne : s.restaurants ≠ [] := fun h => h0 (hzero.2 h)
      simp [h0, hne, reply]
  · intro hne
    have h0 : ¬ (topRestaurants s).length = 0 := fun h => hne (hzero.1 h)
    refine ⟨topRestaurants s, (s.restaurants.insertionSort ratedAtLeast).drop 10, ?_, hlen,
      ?_, ?_, ?_⟩
    · simp [topRated, h0]
    · exact (hsorted.sublist (List.take_sublist 10 _))
    · rw [hsplit]
      exact List.perm_insertionSort ratedAtLeast s.restaurants
    · rw [← hsplit] at hsorted
      exact (List.pairwise_append.1 hsorted).2.2

theorem topRated_sorted_top_ten_witness :
    ∃ top rest, topRated sampleStoreRated = ⟨200, .restaurants top⟩ ∧
      top.length = min 10 sampleStoreRated.restaurants.length ∧
      top.Pairwise (fun a b => b.Rating ≤ a.Rating) ∧
      (top ++ rest).Perm sampleStoreRated.restaurants ∧
      ∀ a ∈ top, ∀ b ∈ rest, b.Rating ≤ a.Rating :=
  (topRated_sorted_top_ten sampleStoreRated).2 (by decide)

/-! ## Failure paths -/

/-- C15. When the food of an `addItem` request does not exist, the reply is 404
'Food item not found'. If the user's cart is bound to another restaurant than
the requested one, that cart has been deleted and the user has no cart
afterwards; if the user has no cart or a cart of the requested restaurant, the
carts are as before. -/
theorem addItem_missing_food (s : Store) (userId restaurantId foodId : Id) (quantity : Int)
    (hfood : findFood s foodId = none) :
    (∀ old : Cart, OneCartPerUser s → CartIdsFresh s → findCart s userId = some old →
      old.restaurantId ≠ restaurantId →
      (addItem s userId restaurantId foodId quantity).1 = reply 404 "Food item not found" ∧
        (addItem s userId restaurantId foodId quantity).2.carts
          = s.carts.eraseP (fun c => c._id == old._id) ∧
        old ∉ (addItem s userId restaurantId foodId quantity).2.carts ∧
        findCart (addItem s userId restaurantId foodId quantity).2 userId = none) ∧
    ((findCart s userId = none ∨
        ∃ c, findCart s userId = some c ∧ c.restaurantId = restaurantId) →
      (addItem s userId restaurantId foodId quantity).1 = reply 404 "Food item not found" ∧
        (addItem s userId restaurantId foodId quantity).2.carts = s.carts) := by
  constructor
  · intro old hone hids hcart hne
    obtain ⟨hmem, huser⟩ := mem_of_findCart hcart
    have hfood2 : findFood { deleteCart s old._id with nextId := s.nextId + 1 } foodId = none :=
      hfood
    have hres : addItem s userId restaurantId foodId quantity =
        (reply 404 "Food item not found",
          { deleteCart s old._id with nextId := s.nextId + 1 }) := by
      have hload : loadCartFor s userId restaurantId = (deleteCart s old._id, none) := by
        simp [loadCartFor, hcart, hne]
      simp only [addItem, hload, cartOrNew, storeLine]
      simp only [deleteCart] at hfood2 ⊢
      rw [hfood2]
    have hgone : ∀ x ∈ s.carts.eraseP (fun c => c._id == old._id),
        (x.userId == userId) = false := by
      intro x hx
      have := eraseP_id_no_user s.carts old hmem hids.1 hone x hx
      rw [huser] at this
      simpa using this
    rw [hres]
    refine ⟨rfl, rfl, ?_, find?_eq_none_of_forall _ _ hgone⟩
    intro hin
    have := hgone old hin
    simp [huser] at this
  · intro hcase
    rcases hcase with hno | ⟨c, hc, hcr⟩
    · have hfood2 : findFood { s with nextId := s.nextId + 1 } foodId = none := hfood
      simp [addItem, loadCartFor, hno, cartOrNew, storeLine, hfood2]
    · simp [addItem, loadCartFor, hc, hcr, cartOrNew, storeLine, hfood]

theorem addItem_missing_food_witness :
    findCart (addItem sampleStoreWithCart 1 8 99 4).2 1 = none ∧
      (addItem sampleStoreWithCart 1 7 99 4).2.carts = sampleStoreWithCart.carts :=
  ⟨((addItem_missing_food sampleStoreWithCart 1 8 99 4 (by decide)).1
      ⟨100, 1, 7, [⟨101, 3, 2⟩], 20⟩ (by decide) (by decide) (by decide) (by decide)).2.2.2,
    ((addItem_missing_food sampleStoreWithCart 1 7 99 4 (by decide)).2
      (Or.inr ⟨⟨100, 1, 7, [⟨101, 3, 2⟩], 20⟩, by decide, by decide⟩)).2⟩

/-- C16. A `placeOrder` request whose total is 0 is answered 400 'Incomplete
order data' and leaves the store as it was, whatever its other fields and
whether or not its restaurant exists; a request with the empty item list, a
total other than 0 and non-empty contact strings passes the test of line 716
and is not answered 400. -/
theorem placeOrder_zero_total_is_missing :
    (∀ (s : Store) (now : Nat) (req : OrderRequest), req.total = some 0 →
      placeOrder s now req = (reply 400 "Incomplete order data", s)) ∧
    (∀ (s : Store) (now : Nat) (userId restaurantId : Id) (total : Int)
      (customerName customerAddress customerPhone : String)
      (restaurantName restaurantAddress restaurantPhone : String),
      total ≠ 0 → customerName ≠ "" → customerAddress ≠ "" → customerPhone ≠ "" →
      restaurantName ≠ "" → restaurantAddress ≠ "" → restaurantPhone ≠ "" →
      incomplete
          { userId := some userId, restaurantId := some restaurantId, items := some [],
            total := some total, customerName := some customerName,
            customerAddress := some customerAddress, customerPhone := some customerPhone,
            restaurantName := some restaurantName, restaurantAddress := some restaurantAddress,
            restaurantPhone := some restaurantPhone } = false ∧
        (placeOrder s now
          { userId := some userId, restaurantId := some restaurantId, items := some [],
            total := some total, customerName := some customerName,
            customerAddress := some customerAddress, customerPhone := some customerPhone,
            restaurantName := some restaurantName, restaurantAddress := some restaurantAddress,
            restaurantPhone := some restaurantPhone }).1.status ≠ 400) := by
  constructor
  · intro s now req h0
    have hinc : incomplete req = true := by
      simp [incomplete, h0, falsyNum]
    simp [placeOrder, hinc]
  · intro s now userId restaurantId total cn ca cp rn ra rp ht hcn hca hcp hrn hra hrp
    have hinc : incomplete
        { userId := some userId, restaurantId := some restaurantId, items := some [],
          total := some total, customerName := some cn, customerAddress := some ca,
          customerPhone := some cp, restaurantName := some rn, restaurantAddress := some ra,
          restaurantPhone := some rp } = false := by
      simp [incomplete, falsyRef, falsyNum, falsyStr, ht, hcn, hca, hcp, hrn, hra, hrp]
    refine ⟨hinc, ?_⟩
    simp only [placeOrder, hinc]
    cases hrest : findRestaurant s restaurantId with
    | none => simp [reply]
    | some r => simp

theorem placeOrder_zero_total_is_missing_witness :
    (findRestaurant sampleStore 7).isSome ∧
      placeOrder sampleStore 0 (sampleRequest 0)
        = (reply 400 "Incomplete order data", sampleStore) ∧
      (placeOrder sampleStore 0 { sampleRequest 20 with items := some [] }).1.status ≠ 400 :=
  ⟨by decide, placeOrder_zero_total_is_missing.1 sampleStore 0 (sampleRequest 0) rfl,
    (placeOrder_zero_total_is_missing.2 sampleStore 0 1 7 20 "Ann" "1 Main St" "555" "Roma"
      "2 High St" "777" (by decide) (by decide) (by decide) (by decide) (by decide) (by decide)
      (by decide)).2⟩

end Foodash
